import Mathlib

/-!
Verification of the colonies-ts cryptography module (src/crypto.ts).

The module implements secp256k1 ECDSA with a deterministic (RFC-6979-style,
single-pass) nonce, SHA3-256 message digesting and identity derivation, and a
65-byte recoverable-signature encoding.  Every definition below is a shallow
embedding of the corresponding TypeScript function, translated line by line:

* JavaScript `bigint` becomes `Int`; the JS `%` operator (truncated remainder,
  sign of the dividend) becomes `Int.tmod` and `/` on bigints becomes
  `Int.tdiv`; `**` becomes `^`.
* `Uint8Array` values become `List Nat` of byte values.
* Loops and non-structural recursions carry an explicit fuel argument chosen
  provably larger than the number of iterations the source performs, so that
  all definitions are structurally recursive and evaluate inside the kernel.
* Fallible functions (`hexToBytes`, and the functions that `throw`) return
  `Option` / `Except String`.
* The sole impure input, `randomBytes(32)` inside `generatePrivateKey`, is
  made an explicit parameter.

The external hash primitives the source imports from `@noble/hashes`
(`sha3_256`, `sha256`, `hmac`) are embedded by their standard definitions
(FIPS 202 / FIPS 180-4 / RFC 2104); they reproduce the repository's own
known-answer vectors, which pins them bit-for-bit to what the source consumes.
-/

set_option maxRecDepth 100000
set_option maxHeartbeats 16000000

namespace Crypto

/-- secp256k1 curve coefficient `a = 0` (source constant `A`). -/
def A : Int := 0

/-- secp256k1 group order (source constant `N`). -/
def N : Int := 115792089237316195423570985008687907852837564279074904382605163141518161494337

/-- x-coordinate of the base point (source constant `Gx`). -/
def Gx : Int := 55066263022277343669578718895168534326250603453777594175500187360389116729240

/-- y-coordinate of the base point (source constant `Gy`). -/
def Gy : Int := 32670510020758816978083085130507043184471273380659243275938904335757337482424

/-- secp256k1 prime field modulus (source constant `P = 2**256 - 2**32 - 977`). -/
def P : Int := Int.pow 2 256 - Int.pow 2 32 - 977

/-- An affine point, the source's `type Point = [bigint, bigint]`. -/
structure Point where
  x : Int
  y : Int
deriving DecidableEq

/-- A Jacobian point, the source's `type JacobianPoint = [bigint, bigint, bigint]`. -/
structure JacobianPoint where
  X : Int
  Y : Int
  Z : Int
deriving DecidableEq

/-- The base point `G = [Gx, Gy]`. -/
def G : Point := ⟨Gx, Gy⟩

/-- The `while (low > 1)` loop of the source's `inv`, written with an explicit
fuel argument.  The fuel that `inv` passes (`low.toNat + 1`) strictly exceeds
the number of iterations: each pass replaces `low` by the truncated remainder
`high - low * (high / low)`, which either is negative (ending the loop at the
next test) or is a nonnegative value strictly smaller than `low`. -/
def invLoop : Nat → Int → Int → Int → Int → Int
  | 0, lm, _, _, _ => lm
  | fuel + 1, lm, hm, low, high =>
    if 1 < low then
      invLoop fuel (hm - lm * (high.tdiv low)) lm (high - low * (high.tdiv low)) low
    else lm

/-- Source `inv(a, n)`: modular inverse by the extended Euclidean algorithm.
Returns `0` for `a = 0`, otherwise normalizes `a` into `[0, n)` with
`((a % n) + n) % n` and runs the loop, finally normalizing the Bezout
coefficient `lm` the same way. -/
def inv (a n : Int) : Int :=
  if a = 0 then 0
  else
    let low := ((a.tmod n) + n).tmod n
    (((invLoop (low.toNat + 1) 1 0 low n).tmod n) + n).tmod n

/-- Source `toJacobian`: lift an affine point by setting `Z = 1`. -/
def toJacobian (p : Point) : JacobianPoint := ⟨p.x, p.y, 1⟩

/-- Source `fromJacobian`: lower a Jacobian point to affine coordinates using
the modular inverse of `Z`, normalizing both coordinates into `[0, P)`. -/
def fromJacobian (p : JacobianPoint) : Point :=
  let z := inv p.Z P
  let z2 := (z * z).tmod P
  let z3 := (z2 * z).tmod P
  ⟨((p.X * z2).tmod P + P).tmod P, ((p.Y * z3).tmod P + P).tmod P⟩

/-- Source `jacobianDouble`: Jacobian point doubling, with the early return
`[0n, 0n, 0n]` when the input has `Y = 0`. -/
def jacobianDouble (p : JacobianPoint) : JacobianPoint :=
  if p.Y = 0 then ⟨0, 0, 0⟩
  else
    let ysq := (Int.pow p.Y 2).tmod P
    let S := (4 * p.X * ysq).tmod P
    let M := (3 * Int.pow p.X 2 + A * Int.pow p.Z 4).tmod P
    let nx := ((Int.pow M 2 - 2 * S).tmod P + P).tmod P
    let ny := ((M * (S - nx) - 8 * Int.pow ysq 2).tmod P + P).tmod P
    let nz := (2 * p.Y * p.Z).tmod P
    ⟨nx, ny, nz⟩

/-- Source `jacobianAdd`: Jacobian point addition, returning the other operand
when one input has `Y = 0`, the canonical infinity `[0, 0, 1]` when the inputs
are inverses, and delegating to `jacobianDouble` when they are equal. -/
def jacobianAdd (p q : JacobianPoint) : JacobianPoint :=
  if p.Y = 0 then q
  else if q.Y = 0 then p
  else
    let U1 := (p.X * Int.pow q.Z 2).tmod P
    let U2 := (q.X * Int.pow p.Z 2).tmod P
    let S1 := (p.Y * Int.pow q.Z 3).tmod P
    let S2 := (q.Y * Int.pow p.Z 3).tmod P
    if U1 = U2 then
      if S1 ≠ S2 then ⟨0, 0, 1⟩
      else jacobianDouble p
    else
      let H := ((U2 - U1).tmod P + P).tmod P
      let R := ((S2 - S1).tmod P + P).tmod P
      let H2 := (H * H).tmod P
      let H3 := (H * H2).tmod P
      let U1H2 := (U1 * H2).tmod P
      let nx := ((Int.pow R 2 - H3 - 2 * U1H2).tmod P + P).tmod P
      let ny := ((R * (U1H2 - nx) - S1 * H3).tmod P + P).tmod P
      let nz := (H * p.Z * q.Z).tmod P
      ⟨nx, ny, nz⟩

/-- The source's recursive `jacobianMultiply` (double-and-add), with fuel.
The source recursion terminates for every input: the out-of-range branch is
taken at most once and brings the scalar into `[0, N)`, after which each step
halves the scalar (`N < 2 ^ 256`), so the recursion depth never exceeds 260
and fuel 300 is never exhausted. -/
def jacobianMultiplyF : Nat → JacobianPoint → Int → JacobianPoint
  | 0, _, _ => ⟨0, 0, 1⟩
  | fuel + 1, a, n =>
    if a.Y = 0 ∨ n = 0 then ⟨0, 0, 1⟩
    else if n = 1 then a
    else if n < 0 ∨ N ≤ n then jacobianMultiplyF fuel a (((n.tmod N) + N).tmod N)
    else if n.tmod 2 = 0 then jacobianDouble (jacobianMultiplyF fuel a (n.tdiv 2))
    else jacobianAdd (jacobianDouble (jacobianMultiplyF fuel a (n.tdiv 2))) a

/-- Source `jacobianMultiply(a, n)`. -/
def jacobianMultiply (a : JacobianPoint) (n : Int) : JacobianPoint :=
  jacobianMultiplyF 300 a n

/-- Source `fastMultiply`: scalar multiplication on affine points through the
Jacobian representation. -/
def fastMultiply (a : Point) (n : Int) : Point :=
  fromJacobian (jacobianMultiply (toJacobian a) n)

/-- One lowercase hex digit, as produced by the `bytesToHex` lookup table of
`@noble/hashes` for nibble values below 16. -/
def hexChar (n : Nat) : Char :=
  if n < 10 then Char.ofNat (48 + n) else Char.ofNat (87 + n)

/-- The character list of the lowercase hex encoding of a byte list. -/
def hexCharsOf : List Nat → List Char
  | [] => []
  | b :: rest => hexChar (b / 16) :: hexChar (b % 16) :: hexCharsOf rest

/-- `bytesToHex` of `@noble/hashes`: lowercase hex, two digits per byte. -/
def bytesToHex (bs : List Nat) : String := String.mk (hexCharsOf bs)

/-- Value of one hex digit character (`0-9`, `A-F`, `a-f`), as accepted by the
`hexToBytes` of `@noble/hashes`; `none` for any other character. -/
def hexDigitVal (c : Char) : Option Nat :=
  if 48 ≤ c.toNat ∧ c.toNat ≤ 57 then some (c.toNat - 48)
  else if 65 ≤ c.toNat ∧ c.toNat ≤ 70 then some (c.toNat - 55)
  else if 97 ≤ c.toNat ∧ c.toNat ≤ 102 then some (c.toNat - 87)
  else none

/-- `hexToBytes` on a character list: fails (`none`) on odd length or on any
non-hex character, mirroring the exceptions thrown by `@noble/hashes`. -/
def hexToBytesList : List Char → Option (List Nat)
  | [] => some []
  | [_] => none
  | c1 :: c2 :: rest =>
    match hexDigitVal c1, hexDigitVal c2, hexToBytesList rest with
    | some h, some l, some bs => some ((16 * h + l) :: bs)
    | _, _, _ => none

/-- `hexToBytes` of `@noble/hashes`. -/
def hexToBytes (s : String) : Option (List Nat) := hexToBytesList s.data

/-- Source `bigEndianToInt`: a byte list read as a big-endian integer (the
source goes through a hex string; the value is the same fold, with the empty
array mapping to 0). -/
def bigEndianToInt (bs : List Nat) : Nat := bs.foldl (fun acc b => acc * 256 + b) 0

/-- Minimal big-endian byte representation of a positive number, with fuel
(the fuel `v` passed by `intToBigEndian` exceeds the digit count since
`v / 256 < v` for `v > 0`). -/
def natToBEAux : Nat → Nat → List Nat
  | 0, _ => []
  | fuel + 1, v => if v = 0 then [] else natToBEAux fuel (v / 256) ++ [v % 256]

/-- Source `intToBigEndian`: `[0]` for zero, otherwise the minimal big-endian
byte string (the source renders a hex string of even length and decodes it;
the byte value is identical).  All call sites pass nonnegative values. -/
def intToBigEndian (value : Int) : List Nat :=
  if value = 0 then [0] else natToBEAux value.toNat value.toNat

/-- Source `pad32`: truncate to the first 32 bytes when the input has 32 or
more, otherwise left-pad with zero bytes to length 32. -/
def pad32 (bs : List Nat) : List Nat :=
  if 32 ≤ bs.length then bs.take 32 else List.replicate (32 - bs.length) 0 ++ bs

/-- UTF-8 encoding of one character (what `TextEncoder` produces). -/
def utf8Char (c : Char) : List Nat :=
  let n := c.toNat
  if n < 128 then [n]
  else if n < 2048 then [192 + n / 64, 128 + n % 64]
  else if n < 65536 then [224 + n / 4096, 128 + n / 64 % 64, 128 + n % 64]
  else [240 + n / 262144, 128 + n / 4096 % 64, 128 + n / 64 % 64, 128 + n % 64]

/-- UTF-8 encoding of a string (`new TextEncoder().encode(s)`). -/
def utf8Encode (s : String) : List Nat := (s.data.map utf8Char).flatten

/-- 64-bit left rotation, used by the Keccak permutation. -/
def rotl64 (x k : Nat) : Nat := ((x <<< k) ||| (x >>> (64 - k))) % Nat.pow 2 64

/-- Keccak round constants (FIPS 202). -/
def keccakRC : List Nat :=
  [0x0000000000000001, 0x0000000000008082, 0x800000000000808a, 0x8000000080008000] ++
  [0x000000000000808b, 0x0000000080000001, 0x8000000080008081, 0x8000000000008009] ++
  [0x000000000000008a, 0x0000000000000088, 0x0000000080008009, 0x000000008000000a] ++
  [0x000000008000808b, 0x800000000000008b, 0x8000000000008089, 0x8000000000008003] ++
  [0x8000000000008002, 0x8000000000000080, 0x000000000000800a, 0x800000008000000a] ++
  [0x8000000080008081, 0x8000000000008080, 0x0000000080000001, 0x8000000080008008]

/-- Keccak rotation offsets for lane `x + 5y` (FIPS 202). -/
def rhoOffsets : List Nat :=
  [0, 1, 62, 28, 27] ++ [36, 44, 6, 55, 20] ++ [3, 10, 43, 25, 39] ++
  [41, 45, 15, 21, 8] ++ [18, 2, 61, 56, 14]

/-- Keccak θ step on a 25-lane state. -/
def keccakTheta (st : List Nat) : List Nat :=
  let C := (List.range 5).map (fun x =>
    st.getD x 0 ^^^ st.getD (x + 5) 0 ^^^ st.getD (x + 10) 0 ^^^ st.getD (x + 15) 0 ^^^
      st.getD (x + 20) 0)
  (List.range 25).map (fun i =>
    st.getD i 0 ^^^ C.getD ((i + 4) % 5) 0 ^^^ rotl64 (C.getD ((i + 1) % 5) 0) 1)

/-- Keccak ρ and π steps combined: lane `(X, Y)` of the output is lane
`((X + 3Y) mod 5, X)` of the input rotated by its offset. -/
def keccakRhoPi (st : List Nat) : List Nat :=
  (List.range 25).map (fun i =>
    let src := (i % 5 + 3 * (i / 5)) % 5 + 5 * (i % 5)
    rotl64 (st.getD src 0) (rhoOffsets.getD src 0))

/-- Keccak χ step. -/
def keccakChi (b : List Nat) : List Nat :=
  (List.range 25).map (fun i =>
    let x := i % 5
    let y := i / 5
    b.getD i 0 ^^^ ((b.getD ((x + 1) % 5 + 5 * y) 0 ^^^ (Nat.pow 2 64 - 1)) &&& b.getD ((x + 2) % 5 + 5 * y) 0))

/-- One Keccak round: θ, ρ, π, χ, then ι (xor of the round constant into
lane 0). -/
def keccakRound (st : List Nat) (rc : Nat) : List Nat :=
  let b := keccakChi (keccakRhoPi (keccakTheta st))
  b.set 0 (b.getD 0 0 ^^^ rc)

/-- The Keccak-f[1600] permutation: 24 rounds. -/
def keccakF (st : List Nat) : List Nat := keccakRC.foldl keccakRound st

/-- A 64-bit lane read little-endian from bytes `8i .. 8i+7` of a block. -/
def laneOfBytes (block : List Nat) (i : Nat) : Nat :=
  ((List.range 8).map (fun j => block.getD (8 * i + j) 0 * Nat.pow 256 j)).sum

/-- Absorb one 136-byte rate block into the first 17 lanes of the state. -/
def xorBlock (st : List Nat) (block : List Nat) : List Nat :=
  (List.range 25).map (fun i => if i < 17 then st.getD i 0 ^^^ laneOfBytes block i else st.getD i 0)

/-- Absorb `k` rate blocks (the caller passes the exact block count, so the
structural recursion on `k` performs the source's whole absorbing loop). -/
def keccakAbsorb : Nat → List Nat → List Nat → List Nat
  | 0, st, _ => st
  | k + 1, st, bs => keccakAbsorb k (keccakF (xorBlock st (bs.take 136))) (bs.drop 136)

/-- SHA3 multi-rate padding (domain byte `0x06`, final bit `0x80`) to a
multiple of the 136-byte rate. -/
def sha3Pad (msg : List Nat) : List Nat :=
  let rem := 136 - msg.length % 136
  if rem = 1 then msg ++ [0x86] else msg ++ [0x06] ++ List.replicate (rem - 2) 0 ++ [0x80]

/-- Squeeze the 32 output bytes (little-endian from the first four lanes). -/
def keccakSqueeze (st : List Nat) : List Nat :=
  (List.range 32).map (fun i => st.getD (i / 8) 0 / Nat.pow 256 (i % 8) % 256)

/-- SHA3-256 (FIPS 202), the `sha3_256` of `@noble/hashes` that the source
imports.  Verified against the repository's known-answer vectors below. -/
def sha3_256 (msg : List Nat) : List Nat :=
  let padded := sha3Pad msg
  keccakSqueeze (keccakAbsorb (padded.length / 136) (List.replicate 25 0) padded)

/-- 32-bit right rotation, used by SHA-256. -/
def ror32 (x k : Nat) : Nat := ((x >>> k) ||| (x <<< (32 - k))) % Nat.pow 2 32

/-- SHA-256 round constants (FIPS 180-4). -/
def sha256K : List Nat :=
  [0x428a2f98, 0x71374491, 0xb5c0fbcf, 0xe9b5dba5, 0x3956c25b, 0x59f111f1, 0x923f82a4, 0xab1c5ed5] ++
  [0xd807aa98, 0x12835b01, 0x243185be, 0x550c7dc3, 0x72be5d74, 0x80deb1fe, 0x9bdc06a7, 0xc19bf174] ++
  [0xe49b69c1, 0xefbe4786, 0x0fc19dc6, 0x240ca1cc, 0x2de92c6f, 0x4a7484aa, 0x5cb0a9dc, 0x76f988da] ++
  [0x983e5152, 0xa831c66d, 0xb00327c8, 0xbf597fc7, 0xc6e00bf3, 0xd5a79147, 0x06ca6351, 0x14292967] ++
  [0x27b70a85, 0x2e1b2138, 0x4d2c6dfc, 0x53380d13, 0x650a7354, 0x766a0abb, 0x81c2c92e, 0x92722c85] ++
  [0xa2bfe8a1, 0xa81a664b, 0xc24b8b70, 0xc76c51a3, 0xd192e819, 0xd6990624, 0xf40e3585, 0x106aa070] ++
  [0x19a4c116, 0x1e376c08, 0x2748774c, 0x34b0bcb5, 0x391c0cb3, 0x4ed8aa4a, 0x5b9cca4f, 0x682e6ff3] ++
  [0x748f82ee, 0x78a5636f, 0x84c87814, 0x8cc70208, 0x90befffa, 0xa4506ceb, 0xbef9a3f7, 0xc67178f2]

/-- SHA-256 initial hash state (FIPS 180-4). -/
def sha256H0 : List Nat :=
  [0x6a09e667, 0xbb67ae85, 0x3c6ef372, 0xa54ff53a, 0x510e527f, 0x9b05688c, 0x1f83d9ab, 0x5be0cd19]

/-- The 16 big-endian 32-bit words of a 64-byte block (four bytes per word). -/
def words16 : List Nat → List Nat
  | b0 :: b1 :: b2 :: b3 :: rest =>
    (b0 * Nat.pow 2 24 + b1 * Nat.pow 2 16 + b2 * Nat.pow 2 8 + b3) :: words16 rest
  | _ => []

/-- The next word of the SHA-256 message schedule,
`W[t] = W[t-16] + s0(W[t-15]) + W[t-7] + s1(W[t-2]) mod 2^32`.  The schedule
is threaded in reverse order (most recent word first), so `W[t-k]` is the
entry at position `k - 1`. -/
def nextW (w : List Nat) : Nat :=
  let w15 := w.getD 14 0
  let w2 := w.getD 1 0
  (w.getD 15 0 + (ror32 w15 7 ^^^ ror32 w15 18 ^^^ (w15 >>> 3)) +
   w.getD 6 0 + (ror32 w2 17 ^^^ ror32 w2 19 ^^^ (w2 >>> 10))) % Nat.pow 2 32

/-- Extend the 16 block words to the 64-word message schedule. -/
def extendW (w : List Nat) : List Nat :=
  ((List.range 48).foldl (fun r _ => nextW r :: r) w.reverse).reverse

/-- One SHA-256 compression round on the eight working variables, consuming
the round's schedule word and round constant. -/
def sha256Step (acc : Nat × Nat × Nat × Nat × Nat × Nat × Nat × Nat) (wk : Nat × Nat) :
    Nat × Nat × Nat × Nat × Nat × Nat × Nat × Nat :=
  match acc, wk with
  | (a, b, c, d, e, f, g, h), (wi, ki) =>
    let S1 := ror32 e 6 ^^^ ror32 e 11 ^^^ ror32 e 25
    let ch := (e &&& f) ^^^ ((e ^^^ (Nat.pow 2 32 - 1)) &&& g)
    let temp1 := (h + S1 + ch + ki + wi) % Nat.pow 2 32
    let S0 := ror32 a 2 ^^^ ror32 a 13 ^^^ ror32 a 22
    let maj := (a &&& b) ^^^ (a &&& c) ^^^ (b &&& c)
    let temp2 := (S0 + maj) % Nat.pow 2 32
    ((temp1 + temp2) % Nat.pow 2 32, a, b, c, (d + temp1) % Nat.pow 2 32, e, f, g)

/-- SHA-256 compression of one 64-byte block into the hash state: 64 rounds
pairing the message schedule with the round constants. -/
def sha256Compress (H : List Nat) (block : List Nat) : List Nat :=
  let w := extendW (words16 block)
  let init := (H.getD 0 0, H.getD 1 0, H.getD 2 0, H.getD 3 0, H.getD 4 0, H.getD 5 0,
    H.getD 6 0, H.getD 7 0)
  match (w.zip sha256K).foldl sha256Step init with
  | (a, b, c, d, e, f, g, h) =>
    [(H.getD 0 0 + a) % Nat.pow 2 32, (H.getD 1 0 + b) % Nat.pow 2 32, (H.getD 2 0 + c) % Nat.pow 2 32,
     (H.getD 3 0 + d) % Nat.pow 2 32, (H.getD 4 0 + e) % Nat.pow 2 32, (H.getD 5 0 + f) % Nat.pow 2 32,
     (H.getD 6 0 + g) % Nat.pow 2 32, (H.getD 7 0 + h) % Nat.pow 2 32]

/-- Compress `k` 64-byte blocks (the caller passes the exact block count). -/
def sha256Absorb : Nat → List Nat → List Nat → List Nat
  | 0, H, _ => H
  | k + 1, H, bs => sha256Absorb k (sha256Compress H (bs.take 64)) (bs.drop 64)

/-- SHA-256 padding: `0x80`, zeros, 64-bit big-endian bit length. -/
def sha256Pad (msg : List Nat) : List Nat :=
  msg ++ [0x80] ++ List.replicate ((64 - (msg.length + 9) % 64) % 64) 0 ++
  (List.range 8).map (fun i => 8 * msg.length / Nat.pow 256 (7 - i) % 256)

/-- SHA-256 (FIPS 180-4), the `sha256` of `@noble/hashes` that the source
imports for the deterministic nonce. -/
def sha256 (msg : List Nat) : List Nat :=
  let padded := sha256Pad msg
  let Hw := sha256Absorb (padded.length / 64) sha256H0 padded
  (List.range 32).map (fun i => Hw.getD (i / 4) 0 / Nat.pow 256 (3 - i % 4) % 256)

/-- HMAC-SHA256 (RFC 2104), the `hmac(sha256, key, data)` of `@noble/hashes`. -/
def hmacSha256 (key msg : List Nat) : List Nat :=
  let kh := if 64 < key.length then sha256 key else key
  let k0 := kh ++ List.replicate (64 - kh.length) 0
  sha256 ((k0.map (fun b => b ^^^ 0x5c)) ++ sha256 ((k0.map (fun b => b ^^^ 0x36)) ++ msg))

/-- Source `deterministicGenerateK`: the single-pass HMAC-DRBG-style nonce
derivation from the message digest and the private key bytes. -/
def deterministicGenerateK (msgHash privateKeyBytes : List Nat) : Nat :=
  let v0 := List.replicate 32 0x01
  let k0 := List.replicate 32 0x00
  let data1 := v0 ++ [0x00] ++ privateKeyBytes ++ msgHash
  let k1 := hmacSha256 k0 data1
  let v1 := hmacSha256 k1 v0
  let data2 := v1 ++ [0x01] ++ privateKeyBytes ++ msgHash
  let k2 := hmacSha256 k1 data2
  let v2 := hmacSha256 k2 v1
  let kb := hmacSha256 k2 v2
  bigEndianToInt kb

/-- The ephemeral point `fastMultiply(G, k)` computed inside `ecdsaRawSign`
from the deterministic nonce. -/
def ecdsaEphemeral (msgHash privateKeyBytes : List Nat) : Point :=
  fastMultiply G (deterministicGenerateK msgHash privateKeyBytes)

/-- The intermediate `sRaw = inv(k, N) * (z + r * privKeyNum) % N` of
`ecdsaRawSign`, named so that theorems can speak about the canonicalization
step. -/
def ecdsaSRaw (msgHash privateKeyBytes : List Nat) : Int :=
  let z := bigEndianToInt msgHash
  let k := deterministicGenerateK msgHash privateKeyBytes
  let r := (fastMultiply G k).x
  let privKeyNum := bigEndianToInt privateKeyBytes
  (inv (k : Int) N * ((z : Int) + r * (privKeyNum : Int))).tmod N

/-- The canonicalization parity bit of `ecdsaRawSign`: `0` when `sRaw` is
already the low value (`sRaw * 2 < N`), `1` when `N - sRaw` is returned. -/
def ecdsaCanonBit (msgHash privateKeyBytes : List Nat) : Nat :=
  if ecdsaSRaw msgHash privateKeyBytes * 2 < N then 0 else 1

/-- Source `ecdsaRawSign(msgHash, privateKeyBytes)`, returning `(v, r, s)`
with `v = 27 + ((y % 2) xor canonBit) - 27` exactly as the source computes it
(`y` is the y-coordinate of the ephemeral point, in `[0, P)`, so `y % 2` is
its parity bit; the JS bigint xor of the two bits is `Nat.xor`). -/
def ecdsaRawSign (msgHash privateKeyBytes : List Nat) : Nat × Int × Int :=
  let z := bigEndianToInt msgHash
  let k := deterministicGenerateK msgHash privateKeyBytes
  let ep := fastMultiply G k
  let r := ep.x
  let y := ep.y
  let privKeyNum := bigEndianToInt privateKeyBytes
  let sRaw := (inv (k : Int) N * ((z : Int) + r * (privKeyNum : Int))).tmod N
  let v := 27 + ((y.toNat % 2) ^^^ (if sRaw * 2 < N then 0 else 1))
  let s := if sRaw * 2 < N then sRaw else N - sRaw
  (v - 27, r, s)

/-- Source `encodeRawPublicKey`: the 64-byte `x ‖ y` serialization. -/
def encodeRawPublicKey (rawPublicKey : Point) : List Nat :=
  pad32 (intToBigEndian rawPublicKey.x) ++ pad32 (intToBigEndian rawPublicKey.y)

/-- Source `privateKeyToPublicKey`: throws `Invalid private key` when the
big-endian value of the key bytes is `≥ N`, otherwise the encoded public
point. -/
def privateKeyToPublicKey (privateKeyBytes : List Nat) : Except String (List Nat) :=
  let privateKeyAsNum := bigEndianToInt privateKeyBytes
  if N ≤ (privateKeyAsNum : Int) then Except.error "Invalid private key"
  else Except.ok (encodeRawPublicKey (fastMultiply G privateKeyAsNum))

/-- Source `generatePrivateKey`, with the 32 bytes drawn from
`randomBytes(32)` made an explicit parameter: hex of SHA3-256 of the random
bytes. -/
def generatePrivateKey (randomData : List Nat) : String := bytesToHex (sha3_256 randomData)

/-- Source `deriveId`: hex-decode the key, derive the public key (which
rejects out-of-range keys), hash the ASCII string `"04" + hex(publicKey)`
with SHA3-256 and hex-encode the digest. -/
def deriveId (privateKey : String) : Except String String :=
  match hexToBytes privateKey with
  | none => Except.error "invalid hex"
  | some privateKeyBytes =>
    match privateKeyToPublicKey privateKeyBytes with
    | Except.error e => Except.error e
    | Except.ok publicKey =>
      let publicKeyHex := "04" ++ bytesToHex publicKey
      Except.ok (bytesToHex (sha3_256 (utf8Encode publicKeyHex)))

/-- The 65-byte signature layout `r (32 bytes) ‖ s (32 bytes) ‖ v (1 byte)`
assembled by the source `sign`. -/
def signatureBytes (v : Nat) (r s : Int) : List Nat :=
  pad32 (intToBigEndian r) ++ pad32 (intToBigEndian s) ++ [v]

/-- Source `sign(message, privateKey)`: hex-decode the key, SHA3-256 the
UTF-8 message bytes, raw-sign, and hex-encode the 65-byte signature.  Note
the source performs no range check on the key here. -/
def sign (message privateKey : String) : Except String String :=
  match hexToBytes privateKey with
  | none => Except.error "invalid hex"
  | some privateKeyBytes =>
    let msgHash := sha3_256 (utf8Encode message)
    let t := ecdsaRawSign msgHash privateKeyBytes
    Except.ok (bytesToHex (signatureBytes t.1 t.2.1 t.2.2))

/-- One step of the double-and-add recursion: the composition applied for one
scalar bit, read off from the even and odd branches of `jacobianMultiplyF`
(proof infrastructure for evaluating concrete scalar multiplications in
bounded-depth chunks). -/
def jmStep (a q : JacobianPoint) (b : Bool) : JacobianPoint :=
  if b then jacobianAdd (jacobianDouble q) a else jacobianDouble q

/-- Iterated double-and-add over a list of scalar bits, most significant
first. -/
def jmSteps (a q : JacobianPoint) (bs : List Bool) : JacobianPoint :=
  bs.foldl (jmStep a) q

/-- The scalar whose binary digits are those of `n` followed by the bits
`bs`. -/
def chunkVal (n : Int) (bs : List Bool) : Int :=
  bs.foldl (fun v b => 2 * v + (if b then 1 else 0)) n

/-- Bits 0..15 of `ksigBits`. -/
def ksigC0 : List Bool := [true, true, true, true, false, false, false, false, false, true, false, false, false, true, true, false]

/-- Bits 16..31 of `ksigBits`. -/
def ksigC1 : List Bool := [false, true, false, false, true, true, true, false, false, true, false, false, false, false, false, false]

/-- Bits 32..47 of `ksigBits`. -/
def ksigC2 : List Bool := [true, false, true, false, true, false, true, true, false, false, true, false, true, false, false, true]

/-- Bits 48..63 of `ksigBits`. -/
def ksigC3 : List Bool := [true, true, true, true, false, true, true, true, true, false, true, false, false, true, false, false]

/-- Bits 64..79 of `ksigBits`. -/
def ksigC4 : List Bool := [false, true, true, false, false, false, true, true, true, true, false, false, false, true, true, false]

/-- Bits 80..95 of `ksigBits`. -/
def ksigC5 : List Bool := [true, false, true, false, true, false, true, true, true, true, true, true, false, false, true, false]

/-- Bits 96..111 of `ksigBits`. -/
def ksigC6 : List Bool := [true, false, false, true, false, true, true, false, false, false, false, false, false, true, false, true]

/-- Bits 112..127 of `ksigBits`. -/
def ksigC7 : List Bool := [true, true, false, true, true, true, false, true, false, false, true, false, true, false, false, true]

/-- Bits 128..143 of `ksigBits`. -/
def ksigC8 : List Bool := [true, false, false, false, true, false, true, false, true, false, false, true, true, false, false, false]

/-- Bits 144..159 of `ksigBits`. -/
def ksigC9 : List Bool := [false, false, false, true, true, false, true, true, true, true, true, true, false, false, true, true]

/-- Bits 160..175 of `ksigBits`. -/
def ksigC10 : List Bool := [true, true, true, false, true, true, false, false, true, true, true, false, true, true, true, false]

/-- Bits 176..191 of `ksigBits`. -/
def ksigC11 : List Bool := [false, false, false, true, false, true, true, false, false, true, true, false, false, false, false, false]

/-- Bits 192..207 of `ksigBits`. -/
def ksigC12 : List Bool := [true, true, true, true, true, false, false, false, false, false, true, false, true, true, false, true]

/-- Bits 208..223 of `ksigBits`. -/
def ksigC13 : List Bool := [true, false, false, false, true, true, true, false, false, false, true, false, false, false, false, true]

/-- Bits 224..239 of `ksigBits`. -/
def ksigC14 : List Bool := [false, false, true, true, false, true, false, false, false, true, true, true, false, true, true, false]

/-- Bits 240..254 of `ksigBits`. -/
def ksigC15 : List Bool := [true, true, true, true, true, false, true, false, true, false, false, false, false, false, true]

/-- The bits of the scalar 112235696135755959070239960406303079492021161716722779663979895957870475967809 below its leading bit, most significant first. -/
def ksigBits : List Bool := ksigC0 ++ (ksigC1 ++ (ksigC2 ++ (ksigC3 ++ (ksigC4 ++ (ksigC5 ++ (ksigC6 ++ (ksigC7 ++ (ksigC8 ++ (ksigC9 ++ (ksigC10 ++ (ksigC11 ++ (ksigC12 ++ (ksigC13 ++ (ksigC14 ++ (ksigC15)))))))))))))))

/-- Bits 0..15 of `kidBits`. -/
def kidC0 : List Bool := [true, false, true, true, false, true, false, false, true, false, true, true, true, true, true, false]

/-- Bits 16..31 of `kidBits`. -/
def kidC1 : List Bool := [true, true, false, true, true, false, true, true, true, true, false, true, false, true, false, true]

/-- Bits 32..47 of `kidBits`. -/
def kidC2 : List Bool := [false, false, false, true, true, false, true, false, true, true, true, false, true, false, true, true]

/-- Bits 48..63 of `kidBits`. -/
def kidC3 : List Bool := [false, false, true, true, true, true, true, true, false, true, true, false, false, true, true, false]

/-- Bits 64..79 of `kidBits`. -/
def kidC4 : List Bool := [false, false, true, true, false, false, false, true, true, false, true, false, false, false, false, true]

/-- Bits 80..95 of `kidBits`. -/
def kidC5 : List Bool := [true, true, false, true, true, false, true, false, false, true, true, true, true, false, false, true]

/-- Bits 96..111 of `kidBits`. -/
def kidC6 : List Bool := [true, false, false, false, false, true, true, true, true, false, false, false, false, false, true, false]

/-- Bits 112..127 of `kidBits`. -/
def kidC7 : List Bool := [true, true, false, true, false, false, false, true, false, false, true, false, true, false, false, true]

/-- Bits 128..143 of `kidBits`. -/
def kidC8 : List Bool := [true, false, true, false, false, true, false, true, true, true, true, false, true, false, false, false]

/-- Bits 144..159 of `kidBits`. -/
def kidC9 : List Bool := [true, true, false, false, false, false, false, true, false, true, true, false, false, true, false, true]

/-- Bits 160..175 of `kidBits`. -/
def kidC10 : List Bool := [true, false, true, true, false, false, false, false, false, false, false, false, false, true, true, false]

/-- Bits 176..191 of `kidBits`. -/
def kidC11 : List Bool := [false, false, true, false, true, false, false, true, false, true, false, false, false, false, true, true]

/-- Bits 192..207 of `kidBits`. -/
def kidC12 : List Bool := [true, false, false, false, true, false, true, false, false, false, false, false, true, false, false, false]

/-- Bits 208..223 of `kidBits`. -/
def kidC13 : List Bool := [false, false, false, false, false, false, true, false, true, false, true, false, true, false, false, true]

/-- Bits 224..239 of `kidBits`. -/
def kidC14 : List Bool := [false, true, true, false, false, true, true, false, true, true, false, false, false, false, false, false]

/-- Bits 240..253 of `kidBits`. -/
def kidC15 : List Bool := [false, true, true, true, false, false, false, false, false, false, true, false, true, false]

/-- The bits of the scalar 49386405038091380111162284215034898805428120374459944904392784692005594733578 below its leading bit, most significant first. -/
def kidBits : List Bool := kidC0 ++ (kidC1 ++ (kidC2 ++ (kidC3 ++ (kidC4 ++ (kidC5 ++ (kidC6 ++ (kidC7 ++ (kidC8 ++ (kidC9 ++ (kidC10 ++ (kidC11 ++ (kidC12 ++ (kidC13 ++ (kidC14 ++ (kidC15)))))))))))))))


/-- SHA3-256 digest of the UTF-8 bytes of `"hello"` (known-answer test input). -/
def msgHashHello : List Nat := [51, 56, 190, 105, 79, 80, 197, 243, 56, 129, 73, 134, 205, 240, 104, 100, 83, 168, 136, 184, 79, 66, 77, 121, 42, 244, 185, 32, 35, 152, 243, 146]

/-- The hex-decoded bytes of the known-answer signing key. -/
def keySigBytes : List Nat := [214, 235, 149, 158, 154, 236, 46, 111, 220, 68, 181, 134, 43, 38, 158, 152, 123, 138, 77, 111, 43, 172, 165, 66, 216, 172, 170, 151, 238, 94, 116, 246]

/-- The hex-decoded bytes of the known-answer identity key. -/
def keyIdBytes : List Nat := [109, 47, 182, 245, 70, 186, 207, 217, 140, 104, 118, 158, 97, 224, 180, 74, 105, 122, 48, 89, 108, 1, 138, 80, 226, 130, 0, 170, 89, 176, 28, 10]

/-- The 64-byte public key derived from the known-answer identity key. -/
def pubIdBytes : List Nat := [8, 233, 3, 39, 110, 231, 151, 54, 102, 220, 238, 239, 165, 51, 94, 92, 75, 107, 89, 137, 130, 25, 6, 219, 152, 248, 222, 138, 207, 143, 133, 56, 36, 202, 50, 52, 168, 96, 34, 0, 186, 162, 215, 95, 48, 203, 32, 80, 205, 161, 134, 2, 130, 76, 62, 178, 218, 101, 74, 147, 160, 26, 122, 212]

/-- First DRBG update key `K = HMAC(K, V || 0x00 || priv || hash)` for the
known-answer signing input. -/
def kSig1 : List Nat := [94, 128, 199, 3, 20, 107, 37, 73, 6, 241, 110, 50, 78, 28, 62, 189, 93, 204, 197, 79, 236, 102, 153, 153, 181, 56, 76, 177, 200, 228, 134, 215]

/-- First DRBG state `V = HMAC(K, V)` for the known-answer signing input. -/
def vSig1 : List Nat := [237, 229, 244, 62, 137, 212, 114, 87, 37, 159, 27, 32, 55, 30, 132, 8, 91, 223, 170, 176, 20, 171, 8, 48, 248, 228, 191, 136, 189, 161, 249, 211]

/-- Second DRBG update key `K = HMAC(K, V || 0x01 || priv || hash)` for the
known-answer signing input. -/
def kSig2 : List Nat := [140, 42, 128, 27, 103, 7, 21, 252, 56, 78, 209, 185, 3, 125, 65, 56, 162, 212, 178, 107, 158, 101, 117, 64, 131, 86, 183, 56, 183, 59, 151, 22]

/-- Second DRBG state `V = HMAC(K, V)` for the known-answer signing input. -/
def vSig2 : List Nat := [204, 166, 10, 74, 163, 141, 215, 226, 74, 167, 35, 34, 235, 146, 28, 56, 13, 128, 205, 200, 128, 58, 5, 52, 96, 2, 253, 76, 100, 20, 49, 189]

/-- The final DRBG output block for the known-answer signing input. -/
def kbSig : List Nat := [248, 35, 39, 32, 85, 148, 251, 210, 49, 227, 85, 249, 75, 2, 238, 148, 197, 76, 13, 249, 246, 119, 11, 48, 124, 22, 199, 16, 154, 59, 125, 65]

/-- The property of being a string of hex digits (as `hexToBytes` accepts). -/
def isHexString (s : String) : Prop := ∀ c ∈ s.data, (hexDigitVal c).isSome = true

/-- A 64-hex-character key whose value `2^256 - 1` lies above the group
order. -/
def ffKey : String := "ffffffffffffffffffffffffffffffffffffffffffffffffffffffffffffffff"

/-! ### Helper lemmas for evaluating the embedding on concrete inputs -/

/-- Structure equality on `JacobianPoint` from one decidable conjunction of
field equations (lets the kernel evaluate a point expression once). -/
theorem jp_eq_by_fields {p : JacobianPoint} {x y z : Int}
    (h : decide (p.X = x ∧ p.Y = y ∧ p.Z = z) = true) : p = ⟨x, y, z⟩ := by
  obtain ⟨h1, h2, h3⟩ := of_decide_eq_true h
  cases p
  simp_all

/-- Structure equality on `Point` from one decidable conjunction of field
equations. -/
theorem pt_eq_by_fields {p : Point} {x y : Int}
    (h : decide (p.x = x ∧ p.y = y) = true) : p = ⟨x, y⟩ := by
  obtain ⟨h1, h2⟩ := of_decide_eq_true h
  cases p
  simp_all

/-- `jmSteps` splits along list concatenation. -/
theorem jmSteps_append (a q : JacobianPoint) (xs ys : List Bool) :
    jmSteps a q (xs ++ ys) = jmSteps a (jmSteps a q xs) ys := by
  simp [jmSteps, List.foldl_append]

/-- `chunkVal` over a snoc appends one binary digit. -/
theorem chunkVal_append (n : Int) (bs : List Bool) (b : Bool) :
    chunkVal n (bs ++ [b]) = 2 * chunkVal n bs + (if b then 1 else 0) := by
  simp [chunkVal, List.foldl_append]

/-- `chunkVal` over a cons. -/
theorem chunkVal_cons (n : Int) (b : Bool) (bs : List Bool) :
    chunkVal n (b :: bs) = chunkVal (2 * n + (if b then 1 else 0)) bs := by
  simp [chunkVal]

/-- `chunkVal` keeps positive scalars positive. -/
theorem one_le_chunkVal (n : Int) (bs : List Bool) (hn : 1 ≤ n) :
    1 ≤ chunkVal n bs := by
  induction bs generalizing n with
  | nil => simpa [chunkVal]
  | cons b bs ih =>
    rw [chunkVal_cons]
    exact ih _ (by split <;> omega)

/-- One unfolding of `jacobianMultiplyF` on an in-range scalar `2 ≤ m < N`:
only the halving branches remain. -/
theorem jm_step_eq (fuel : Nat) (a : JacobianPoint) (m : Int) (ha : ¬ a.Y = 0)
    (h2 : 2 ≤ m) (hN : m < N) :
    jacobianMultiplyF (fuel + 1) a m =
      if m.tmod 2 = 0 then jacobianDouble (jacobianMultiplyF fuel a (m.tdiv 2))
      else jacobianAdd (jacobianDouble (jacobianMultiplyF fuel a (m.tdiv 2))) a := by
  show (if a.Y = 0 ∨ m = 0 then (⟨0, 0, 1⟩ : JacobianPoint)
    else if m = 1 then a
    else if m < 0 ∨ N ≤ m then jacobianMultiplyF fuel a (((m.tmod N) + N).tmod N)
    else if m.tmod 2 = 0 then jacobianDouble (jacobianMultiplyF fuel a (m.tdiv 2))
    else jacobianAdd (jacobianDouble (jacobianMultiplyF fuel a (m.tdiv 2))) a) = _
  rw [if_neg (by push_neg; exact ⟨ha, by omega⟩), if_neg (by omega),
    if_neg (by push_neg; exact ⟨by omega, hN⟩)]

/-- Peeling lemma: on a scalar written as `chunkVal n bs` with everything in
range, `jacobianMultiplyF` performs exactly the double-and-add steps for the
bits `bs` on top of the multiplication by `n`. -/
theorem jm_peel (bs : List Bool) (fuel : Nat) (a : JacobianPoint) (n : Int)
    (ha : ¬ a.Y = 0) (hn : 1 ≤ n) (hN : chunkVal n bs < N) :
    jacobianMultiplyF (fuel + bs.length) a (chunkVal n bs) =
      jmSteps a (jacobianMultiplyF fuel a n) bs := by
  induction bs using List.reverseRecOn with
  | nil => simp [chunkVal, jmSteps]
  | append_singleton bs b ih =>
    have hv1 : 1 ≤ chunkVal n bs := one_le_chunkVal n bs hn
    have happ := chunkVal_append n bs b
    have hNbs : chunkVal n bs < N := by
      rw [happ] at hN
      split at hN <;> omega
    have hlen : fuel + (bs ++ [b]).length = (fuel + bs.length) + 1 := by
      simp [List.length_append]
      omega
    have h0 : (0 : Int) ≤ 2 * chunkVal n bs := by omega
    rw [hlen, happ, jm_step_eq (fuel + bs.length) a _ ha (by split <;> omega)
      (by rw [← happ]; exact hN)]
    rw [jmSteps_append, ← ih hNbs]
    cases b with
    | false =>
      rw [if_pos, show (2 * chunkVal n bs + (if (false : Bool) then (1 : Int) else 0)).tdiv 2
          = chunkVal n bs by
        rw [show (if (false : Bool) then (1 : Int) else 0) = 0 from rfl, add_zero,
          Int.tdiv_eq_ediv h0 (by omega)]
        omega]
      · simp [jmSteps, jmStep]
      · rw [show (if (false : Bool) then (1 : Int) else 0) = 0 from rfl, add_zero]
        exact Int.mul_tmod_right 2 _
    | true =>
      rw [if_neg, show (2 * chunkVal n bs + (if (true : Bool) then (1 : Int) else 0)).tdiv 2
          = chunkVal n bs by
        rw [show (if (true : Bool) then (1 : Int) else 0) = 1 from rfl,
          Int.tdiv_eq_ediv (by omega) (by omega)]
        omega]
      · simp [jmSteps, jmStep]
      · rw [show (if (true : Bool) then (1 : Int) else 0) = 1 from rfl,
          Int.tmod_eq_emod (by omega) (by omega)]
        omega

/-- Double-and-add steps for the bits of `ksigC0`. -/
theorem ksigChunk0 : jmSteps (⟨55066263022277343669578718895168534326250603453777594175500187360389116729240, 32670510020758816978083085130507043184471273380659243275938904335757337482424, 1⟩ : JacobianPoint) (⟨55066263022277343669578718895168534326250603453777594175500187360389116729240, 32670510020758816978083085130507043184471273380659243275938904335757337482424, 1⟩ : JacobianPoint) ksigC0 = (⟨103756030587954137498222364057452123985965586514098306727276957891305216115259, 63085697995312588028139564116179540051811221146512328789849235488889655822543, 103027337392823080555428719370580876411867897655751685032062571872292199931362⟩ : JacobianPoint) := jp_eq_by_fields (by rfl)

/-- Double-and-add steps for the bits of `ksigC1`. -/
theorem ksigChunk1 : jmSteps (⟨55066263022277343669578718895168534326250603453777594175500187360389116729240, 32670510020758816978083085130507043184471273380659243275938904335757337482424, 1⟩ : JacobianPoint) (⟨103756030587954137498222364057452123985965586514098306727276957891305216115259, 63085697995312588028139564116179540051811221146512328789849235488889655822543, 103027337392823080555428719370580876411867897655751685032062571872292199931362⟩ : JacobianPoint) ksigC1 = (⟨34799600815162991411680944366502511018474777177168371813760102850063488277142, 24367890873308319201535181768207976508938061823355542223254169862817089837062, 24515320724791302654851561445757731373288310654350576712458071517378314325233⟩ : JacobianPoint) := jp_eq_by_fields (by rfl)

/-- Double-and-add steps for the bits of `ksigC2`. -/
theorem ksigChunk2 : jmSteps (⟨55066263022277343669578718895168534326250603453777594175500187360389116729240, 32670510020758816978083085130507043184471273380659243275938904335757337482424, 1⟩ : JacobianPoint) (⟨34799600815162991411680944366502511018474777177168371813760102850063488277142, 24367890873308319201535181768207976508938061823355542223254169862817089837062, 24515320724791302654851561445757731373288310654350576712458071517378314325233⟩ : JacobianPoint) ksigC2 = (⟨100168077546661135749210099741415570517228768161594934727754886371753571010697, 10329149681356158022479533732844049458628157254248315263044058433497730101976, 98947630020591641781876633396182195521546779238541985125859948091669818124677⟩ : JacobianPoint) := jp_eq_by_fields (by rfl)

/-- Double-and-add steps for the bits of `ksigC3`. -/
theorem ksigChunk3 : jmSteps (⟨55066263022277343669578718895168534326250603453777594175500187360389116729240, 32670510020758816978083085130507043184471273380659243275938904335757337482424, 1⟩ : JacobianPoint) (⟨100168077546661135749210099741415570517228768161594934727754886371753571010697, 10329149681356158022479533732844049458628157254248315263044058433497730101976, 98947630020591641781876633396182195521546779238541985125859948091669818124677⟩ : JacobianPoint) ksigC3 = (⟨13860659140115783968055293273218241233224136499781720728970472453791202127951, 96936082697577035225861499375528612407479473181853178907667076188785021977298, 48613277034960705439712063775572095374059578917987664905324532509029806745860⟩ : JacobianPoint) := jp_eq_by_fields (by rfl)

/-- Double-and-add steps for the bits of `ksigC4`. -/
theorem ksigChunk4 : jmSteps (⟨55066263022277343669578718895168534326250603453777594175500187360389116729240, 32670510020758816978083085130507043184471273380659243275938904335757337482424, 1⟩ : JacobianPoint) (⟨13860659140115783968055293273218241233224136499781720728970472453791202127951, 96936082697577035225861499375528612407479473181853178907667076188785021977298, 48613277034960705439712063775572095374059578917987664905324532509029806745860⟩ : JacobianPoint) ksigC4 = (⟨61449275645017376376166619851009909045877182971639787220058662994115288795551, 80214338751207544667667114574855229922762992411256490155440202993802098214700, 70130024393189583089412979633828093011118214306504438249148930355174502439196⟩ : JacobianPoint) := jp_eq_by_fields (by rfl)

/-- Double-and-add steps for the bits of `ksigC5`. -/
theorem ksigChunk5 : jmSteps (⟨55066263022277343669578718895168534326250603453777594175500187360389116729240, 32670510020758816978083085130507043184471273380659243275938904335757337482424, 1⟩ : JacobianPoint) (⟨61449275645017376376166619851009909045877182971639787220058662994115288795551, 80214338751207544667667114574855229922762992411256490155440202993802098214700, 70130024393189583089412979633828093011118214306504438249148930355174502439196⟩ : JacobianPoint) ksigC5 = (⟨114085537892977442077771371165623957062830222738859783372926202029973623457071, 13929979665081429865862001995981668490511530182811500020415154931271468676648, 56217253967119113256798455746641922624444129614381451405165513835376645111296⟩ : JacobianPoint) := jp_eq_by_fields (by rfl)

/-- Double-and-add steps for the bits of `ksigC6`. -/
theorem ksigChunk6 : jmSteps (⟨55066263022277343669578718895168534326250603453777594175500187360389116729240, 32670510020758816978083085130507043184471273380659243275938904335757337482424, 1⟩ : JacobianPoint) (⟨114085537892977442077771371165623957062830222738859783372926202029973623457071, 13929979665081429865862001995981668490511530182811500020415154931271468676648, 56217253967119113256798455746641922624444129614381451405165513835376645111296⟩ : JacobianPoint) ksigC6 = (⟨105669511490245947744877119584956587853906820833565256083809013792942535497767, 25337076367662003098090234031539322474201870934134597301522690750328051381007, 109282415465246589172796969934473629696437521708656510503541549499470490383470⟩ : JacobianPoint) := jp_eq_by_fields (by rfl)

/-- Double-and-add steps for the bits of `ksigC7`. -/
theorem ksigChunk7 : jmSteps (⟨55066263022277343669578718895168534326250603453777594175500187360389116729240, 32670510020758816978083085130507043184471273380659243275938904335757337482424, 1⟩ : JacobianPoint) (⟨105669511490245947744877119584956587853906820833565256083809013792942535497767, 25337076367662003098090234031539322474201870934134597301522690750328051381007, 109282415465246589172796969934473629696437521708656510503541549499470490383470⟩ : JacobianPoint) ksigC7 = (⟨732275021174475185530373968597353782882409649828551481304206547033604873855, 64144453204300627714984436696963595474492753095173668456481298658123649749171, 78278962705178180196977832975878529729455070223723646756223578769660734462197⟩ : JacobianPoint) := jp_eq_by_fields (by rfl)

/-- Double-and-add steps for the bits of `ksigC8`. -/
theorem ksigChunk8 : jmSteps (⟨55066263022277343669578718895168534326250603453777594175500187360389116729240, 32670510020758816978083085130507043184471273380659243275938904335757337482424, 1⟩ : JacobianPoint) (⟨732275021174475185530373968597353782882409649828551481304206547033604873855, 64144453204300627714984436696963595474492753095173668456481298658123649749171, 78278962705178180196977832975878529729455070223723646756223578769660734462197⟩ : JacobianPoint) ksigC8 = (⟨70941186692347708735687432929002930752388952714943621080082208024636880970570, 80385252382419100890030644432724432150009253306848343058495642978200829530592, 62410390748366627724054480409748145926377010375995230362383033857677732737695⟩ : JacobianPoint) := jp_eq_by_fields (by rfl)

/-- Double-and-add steps for the bits of `ksigC9`. -/
theorem ksigChunk9 : jmSteps (⟨55066263022277343669578718895168534326250603453777594175500187360389116729240, 32670510020758816978083085130507043184471273380659243275938904335757337482424, 1⟩ : JacobianPoint) (⟨70941186692347708735687432929002930752388952714943621080082208024636880970570, 80385252382419100890030644432724432150009253306848343058495642978200829530592, 62410390748366627724054480409748145926377010375995230362383033857677732737695⟩ : JacobianPoint) ksigC9 = (⟨79561739081682393166526375582461898606720049954425644471556242195624937986163, 36708161685509031754343078896566534090212372803758899242931264512669383458005, 37866664373479741681362667567185658363793900492546223579234621989538195164801⟩ : JacobianPoint) := jp_eq_by_fields (by rfl)

/-- Double-and-add steps for the bits of `ksigC10`. -/
theorem ksigChunk10 : jmSteps (⟨55066263022277343669578718895168534326250603453777594175500187360389116729240, 32670510020758816978083085130507043184471273380659243275938904335757337482424, 1⟩ : JacobianPoint) (⟨79561739081682393166526375582461898606720049954425644471556242195624937986163, 36708161685509031754343078896566534090212372803758899242931264512669383458005, 37866664373479741681362667567185658363793900492546223579234621989538195164801⟩ : JacobianPoint) ksigC10 = (⟨86892680486319117766504394532309007503429726297009215108565388261444963670752, 16627988591765794760877913880498811430600776458609722324895693716136684163016, 107923984222401822965165120853956732717567047051786384881456676039441142411577⟩ : JacobianPoint) := jp_eq_by_fields (by rfl)

/-- Double-and-add steps for the bits of `ksigC11`. -/
theorem ksigChunk11 : jmSteps (⟨55066263022277343669578718895168534326250603453777594175500187360389116729240, 32670510020758816978083085130507043184471273380659243275938904335757337482424, 1⟩ : JacobianPoint) (⟨86892680486319117766504394532309007503429726297009215108565388261444963670752, 16627988591765794760877913880498811430600776458609722324895693716136684163016, 107923984222401822965165120853956732717567047051786384881456676039441142411577⟩ : JacobianPoint) ksigC11 = (⟨36138253660053564613882851428986772601046369287161005618256388489064110172631, 51785988991555658574443571878600116579170760354458721929328615204511697189965, 54248011468760021597067087896058594769760125112382122262793607334916572927058⟩ : JacobianPoint) := jp_eq_by_fields (by rfl)

/-- Double-and-add steps for the bits of `ksigC12`. -/
theorem ksigChunk12 : jmSteps (⟨55066263022277343669578718895168534326250603453777594175500187360389116729240, 32670510020758816978083085130507043184471273380659243275938904335757337482424, 1⟩ : JacobianPoint) (⟨36138253660053564613882851428986772601046369287161005618256388489064110172631, 51785988991555658574443571878600116579170760354458721929328615204511697189965, 54248011468760021597067087896058594769760125112382122262793607334916572927058⟩ : JacobianPoint) ksigC12 = (⟨113969425800234043191862432663822368746115271324940810398731130905610756370076, 98059093544229714053556973006737966553600184126272173208555265249601253412819, 95809439975385447659589731807290508489220133436922669642444214229358490250251⟩ : JacobianPoint) := jp_eq_by_fields (by rfl)

/-- Double-and-add steps for the bits of `ksigC13`. -/
theorem ksigChunk13 : jmSteps (⟨55066263022277343669578718895168534326250603453777594175500187360389116729240, 32670510020758816978083085130507043184471273380659243275938904335757337482424, 1⟩ : JacobianPoint) (⟨113969425800234043191862432663822368746115271324940810398731130905610756370076, 98059093544229714053556973006737966553600184126272173208555265249601253412819, 95809439975385447659589731807290508489220133436922669642444214229358490250251⟩ : JacobianPoint) ksigC13 = (⟨81703442658695040325673810862371989058157629811556476280561628707343238178489, 34311606192559105936254961511813930290114110002290170324776938266576079153970, 54626549258089574658952544767303211362332009175190095826538738109442674741468⟩ : JacobianPoint) := jp_eq_by_fields (by rfl)

/-- Double-and-add steps for the bits of `ksigC14`. -/
theorem ksigChunk14 : jmSteps (⟨55066263022277343669578718895168534326250603453777594175500187360389116729240, 32670510020758816978083085130507043184471273380659243275938904335757337482424, 1⟩ : JacobianPoint) (⟨81703442658695040325673810862371989058157629811556476280561628707343238178489, 34311606192559105936254961511813930290114110002290170324776938266576079153970, 54626549258089574658952544767303211362332009175190095826538738109442674741468⟩ : JacobianPoint) ksigC14 = (⟨4018309066416788172756579542008542632191559175373544351673913356656482335513, 102797059618694101902054019262953913788453897514341321343426131690142032567045, 52959467227254869841726296703845822736267150124067666419423347750471920012644⟩ : JacobianPoint) := jp_eq_by_fields (by rfl)

/-- Double-and-add steps for the bits of `ksigC15`. -/
theorem ksigChunk15 : jmSteps (⟨55066263022277343669578718895168534326250603453777594175500187360389116729240, 32670510020758816978083085130507043184471273380659243275938904335757337482424, 1⟩ : JacobianPoint) (⟨4018309066416788172756579542008542632191559175373544351673913356656482335513, 102797059618694101902054019262953913788453897514341321343426131690142032567045, 52959467227254869841726296703845822736267150124067666419423347750471920012644⟩ : JacobianPoint) ksigC15 = (⟨30883880893608803056240662827003708624993319284728519900236784210068621101443, 21034609176833647379143262841525098592831404805771559137165328261610311486526, 58991285186763521856019221220307601261369213865307167218442398893043871563840⟩ : JacobianPoint) := jp_eq_by_fields (by rfl)

/-- The full double-and-add evaluation of `jacobianMultiply` at the base point
and the scalar 112235696135755959070239960406303079492021161716722779663979895957870475967809, assembled from the chunk lemmas through `jm_peel`. -/
theorem ksigMult : jacobianMultiply (toJacobian G) (112235696135755959070239960406303079492021161716722779663979895957870475967809 : Int) = (⟨30883880893608803056240662827003708624993319284728519900236784210068621101443, 21034609176833647379143262841525098592831404805771559137165328261610311486526, 58991285186763521856019221220307601261369213865307167218442398893043871563840⟩ : JacobianPoint) := by
  have hbits : chunkVal 1 ksigBits = (112235696135755959070239960406303079492021161716722779663979895957870475967809 : Int) := by rfl
  have hlen : (300 : Nat) = 45 + ksigBits.length := by rfl
  rw [jacobianMultiply, ← hbits, hlen,
    jm_peel ksigBits 45 (toJacobian G) 1 (by decide) (by decide) (by rw [hbits]; decide),
    show jacobianMultiplyF 45 (toJacobian G) 1 = (toJacobian G) from by decide,
    show toJacobian G = (⟨55066263022277343669578718895168534326250603453777594175500187360389116729240, 32670510020758816978083085130507043184471273380659243275938904335757337482424, 1⟩ : JacobianPoint) from rfl]
  simp only [ksigBits]
  rw [jmSteps_append, ksigChunk0, jmSteps_append, ksigChunk1, jmSteps_append, ksigChunk2, jmSteps_append, ksigChunk3, jmSteps_append, ksigChunk4, jmSteps_append, ksigChunk5, jmSteps_append, ksigChunk6, jmSteps_append, ksigChunk7, jmSteps_append, ksigChunk8, jmSteps_append, ksigChunk9, jmSteps_append, ksigChunk10, jmSteps_append, ksigChunk11, jmSteps_append, ksigChunk12, jmSteps_append, ksigChunk13, jmSteps_append, ksigChunk14, ksigChunk15]

/-- Double-and-add steps for the bits of `kidC0`. -/
theorem kidChunk0 : jmSteps (⟨55066263022277343669578718895168534326250603453777594175500187360389116729240, 32670510020758816978083085130507043184471273380659243275938904335757337482424, 1⟩ : JacobianPoint) (⟨55066263022277343669578718895168534326250603453777594175500187360389116729240, 32670510020758816978083085130507043184471273380659243275938904335757337482424, 1⟩ : JacobianPoint) kidC0 = (⟨64923930959141975380341827180145364035213662601566734541001727546147047921993, 59646566736296030309571039086451436241238064890315708873912032814182594650883, 32900816018307687238436382224337032950546713988685614159926638236184928454233⟩ : JacobianPoint) := jp_eq_by_fields (by rfl)

/-- Double-and-add steps for the bits of `kidC1`. -/
theorem kidChunk1 : jmSteps (⟨55066263022277343669578718895168534326250603453777594175500187360389116729240, 32670510020758816978083085130507043184471273380659243275938904335757337482424, 1⟩ : JacobianPoint) (⟨64923930959141975380341827180145364035213662601566734541001727546147047921993, 59646566736296030309571039086451436241238064890315708873912032814182594650883, 32900816018307687238436382224337032950546713988685614159926638236184928454233⟩ : JacobianPoint) kidC1 = (⟨103808276649926481666985098556138686264100624258232672721489468396863400594166, 85100307883265088661351940912520547321454794272750475534850791561325017390950, 112076468096791766671463507406801321816485362388504555817621359211933529983520⟩ : JacobianPoint) := jp_eq_by_fields (by rfl)

/-- Double-and-add steps for the bits of `kidC2`. -/
theorem kidChunk2 : jmSteps (⟨55066263022277343669578718895168534326250603453777594175500187360389116729240, 32670510020758816978083085130507043184471273380659243275938904335757337482424, 1⟩ : JacobianPoint) (⟨103808276649926481666985098556138686264100624258232672721489468396863400594166, 85100307883265088661351940912520547321454794272750475534850791561325017390950, 112076468096791766671463507406801321816485362388504555817621359211933529983520⟩ : JacobianPoint) kidC2 = (⟨66764410779751696900370582361264781443743601411540281231434646167978509194797, 32161490327991447267047523976409899158233356448619505777592275565682875093752, 73295424777848725497739950036101675112019531575903963387356826925095903347474⟩ : JacobianPoint) := jp_eq_by_fields (by rfl)

/-- Double-and-add steps for the bits of `kidC3`. -/
theorem kidChunk3 : jmSteps (⟨55066263022277343669578718895168534326250603453777594175500187360389116729240, 32670510020758816978083085130507043184471273380659243275938904335757337482424, 1⟩ : JacobianPoint) (⟨66764410779751696900370582361264781443743601411540281231434646167978509194797, 32161490327991447267047523976409899158233356448619505777592275565682875093752, 73295424777848725497739950036101675112019531575903963387356826925095903347474⟩ : JacobianPoint) kidC3 = (⟨21397578981796475616119113949624504856282960462967474393442428438336028901886, 112141994742420326597524073620373030101084085961470371469257527108415387190352, 34884456664585569518890813634378906294764430364989002141980511674987102902562⟩ : JacobianPoint) := jp_eq_by_fields (by rfl)

/-- Double-and-add steps for the bits of `kidC4`. -/
theorem kidChunk4 : jmSteps (⟨55066263022277343669578718895168534326250603453777594175500187360389116729240, 32670510020758816978083085130507043184471273380659243275938904335757337482424, 1⟩ : JacobianPoint) (⟨21397578981796475616119113949624504856282960462967474393442428438336028901886, 112141994742420326597524073620373030101084085961470371469257527108415387190352, 34884456664585569518890813634378906294764430364989002141980511674987102902562⟩ : JacobianPoint) kidC4 = (⟨4845890739520133009440978229595775293560506736912137242335246891996241569430, 82826581990723717643455076017363318175291941725749426200570712056244752261473, 58303881193229528336869638597613321782703975690053486719926286891295857438024⟩ : JacobianPoint) := jp_eq_by_fields (by rfl)

/-- Double-and-add steps for the bits of `kidC5`. -/
theorem kidChunk5 : jmSteps (⟨55066263022277343669578718895168534326250603453777594175500187360389116729240, 32670510020758816978083085130507043184471273380659243275938904335757337482424, 1⟩ : JacobianPoint) (⟨4845890739520133009440978229595775293560506736912137242335246891996241569430, 82826581990723717643455076017363318175291941725749426200570712056244752261473, 58303881193229528336869638597613321782703975690053486719926286891295857438024⟩ : JacobianPoint) kidC5 = (⟨10232270605777415507243817892688975153313418909334021591774943744439991750982, 56151660602449522649275131521703355738532801640441213745092242097069829279360, 64808879351414696904777352927334349138168674819890640788141654467991992223225⟩ : JacobianPoint) := jp_eq_by_fields (by rfl)

/-- Double-and-add steps for the bits of `kidC6`. -/
theorem kidChunk6 : jmSteps (⟨55066263022277343669578718895168534326250603453777594175500187360389116729240, 32670510020758816978083085130507043184471273380659243275938904335757337482424, 1⟩ : JacobianPoint) (⟨10232270605777415507243817892688975153313418909334021591774943744439991750982, 56151660602449522649275131521703355738532801640441213745092242097069829279360, 64808879351414696904777352927334349138168674819890640788141654467991992223225⟩ : JacobianPoint) kidC6 = (⟨53978019414018998711371713290772823564968306390497806941444895744908811103692, 113443888079143486590850115806345680896172218951359409142957513526147303898370, 81890954610958501041894110342056900714550323758113329847379822891585531940980⟩ : JacobianPoint) := jp_eq_by_fields (by rfl)

/-- Double-and-add steps for the bits of `kidC7`. -/
theorem kidChunk7 : jmSteps (⟨55066263022277343669578718895168534326250603453777594175500187360389116729240, 32670510020758816978083085130507043184471273380659243275938904335757337482424, 1⟩ : JacobianPoint) (⟨53978019414018998711371713290772823564968306390497806941444895744908811103692, 113443888079143486590850115806345680896172218951359409142957513526147303898370, 81890954610958501041894110342056900714550323758113329847379822891585531940980⟩ : JacobianPoint) kidC7 = (⟨63425568171371237529154108595225257196274540408981303911290840721637989424136, 35948238874352374117581681341984058629778688159070531404007035051007439734451, 98661650829404679513107558753869920260777326808819927528628094395148302417828⟩ : JacobianPoint) := jp_eq_by_fields (by rfl)

/-- Double-and-add steps for the bits of `kidC8`. -/
theorem kidChunk8 : jmSteps (⟨55066263022277343669578718895168534326250603453777594175500187360389116729240, 32670510020758816978083085130507043184471273380659243275938904335757337482424, 1⟩ : JacobianPoint) (⟨63425568171371237529154108595225257196274540408981303911290840721637989424136, 35948238874352374117581681341984058629778688159070531404007035051007439734451, 98661650829404679513107558753869920260777326808819927528628094395148302417828⟩ : JacobianPoint) kidC8 = (⟨18565365952816498462884598682041816207661678676783311322430224715092854260681, 10771419674086550613155059618412374311292677270457734292902571877238344920014, 50434839792580018654545521299515013554283267700775077209763985121217267848375⟩ : JacobianPoint) := jp_eq_by_fields (by rfl)

/-- Double-and-add steps for the bits of `kidC9`. -/
theorem kidChunk9 : jmSteps (⟨55066263022277343669578718895168534326250603453777594175500187360389116729240, 32670510020758816978083085130507043184471273380659243275938904335757337482424, 1⟩ : JacobianPoint) (⟨18565365952816498462884598682041816207661678676783311322430224715092854260681, 10771419674086550613155059618412374311292677270457734292902571877238344920014, 50434839792580018654545521299515013554283267700775077209763985121217267848375⟩ : JacobianPoint) kidC9 = (⟨55836840658578219777682604837188230515123725698600581524755136601273149902285, 20080734113117128841092240614677435093499420995129505681935063978766188374037, 3100957664149732803500565251751781501881323758813020643677005566832923738870⟩ : JacobianPoint) := jp_eq_by_fields (by rfl)

/-- Double-and-add steps for the bits of `kidC10`. -/
theorem kidChunk10 : jmSteps (⟨55066263022277343669578718895168534326250603453777594175500187360389116729240, 32670510020758816978083085130507043184471273380659243275938904335757337482424, 1⟩ : JacobianPoint) (⟨55836840658578219777682604837188230515123725698600581524755136601273149902285, 20080734113117128841092240614677435093499420995129505681935063978766188374037, 3100957664149732803500565251751781501881323758813020643677005566832923738870⟩ : JacobianPoint) kidC10 = (⟨91676983159853417303336115564089823945706134239918735015567156998719073719699, 98608540267754455880826024486758592283031807023570635188060181329976828531363, 105478738760108444746332790425968093177042213021332347221283891259357102850587⟩ : JacobianPoint) := jp_eq_by_fields (by rfl)

/-- Double-and-add steps for the bits of `kidC11`. -/
theorem kidChunk11 : jmSteps (⟨55066263022277343669578718895168534326250603453777594175500187360389116729240, 32670510020758816978083085130507043184471273380659243275938904335757337482424, 1⟩ : JacobianPoint) (⟨91676983159853417303336115564089823945706134239918735015567156998719073719699, 98608540267754455880826024486758592283031807023570635188060181329976828531363, 105478738760108444746332790425968093177042213021332347221283891259357102850587⟩ : JacobianPoint) kidC11 = (⟨2007997333591227315425470936636095197671054520067179384699156014230748020285, 14962397543223942736811331079802769093524407748128528454674040298620853174101, 20586764968046247886256238921156968956561778924960492592681156599598823335472⟩ : JacobianPoint) := jp_eq_by_fields (by rfl)

/-- Double-and-add steps for the bits of `kidC12`. -/
theorem kidChunk12 : jmSteps (⟨55066263022277343669578718895168534326250603453777594175500187360389116729240, 32670510020758816978083085130507043184471273380659243275938904335757337482424, 1⟩ : JacobianPoint) (⟨2007997333591227315425470936636095197671054520067179384699156014230748020285, 14962397543223942736811331079802769093524407748128528454674040298620853174101, 20586764968046247886256238921156968956561778924960492592681156599598823335472⟩ : JacobianPoint) kidC12 = (⟨82209408216946709526501928700727048050117834195231281791811486897459692879952, 56602847831297742030077144267327535588366888066450579015113742609891249620023, 1492069927485835979527224783843684356632023781776691172717947934187648814574⟩ : JacobianPoint) := jp_eq_by_fields (by rfl)

/-- Double-and-add steps for the bits of `kidC13`. -/
theorem kidChunk13 : jmSteps (⟨55066263022277343669578718895168534326250603453777594175500187360389116729240, 32670510020758816978083085130507043184471273380659243275938904335757337482424, 1⟩ : JacobianPoint) (⟨82209408216946709526501928700727048050117834195231281791811486897459692879952, 56602847831297742030077144267327535588366888066450579015113742609891249620023, 1492069927485835979527224783843684356632023781776691172717947934187648814574⟩ : JacobianPoint) kidC13 = (⟨11784491422660410334691503191324651150137034610203900414933384764481807735901, 31387687278936106971339220192265822283562865002536123652727124213653769091728, 105258798323557909981062441526632489356379900270839982983057950372426661305723⟩ : JacobianPoint) := jp_eq_by_fields (by rfl)

/-- Double-and-add steps for the bits of `kidC14`. -/
theorem kidChunk14 : jmSteps (⟨55066263022277343669578718895168534326250603453777594175500187360389116729240, 32670510020758816978083085130507043184471273380659243275938904335757337482424, 1⟩ : JacobianPoint) (⟨11784491422660410334691503191324651150137034610203900414933384764481807735901, 31387687278936106971339220192265822283562865002536123652727124213653769091728, 105258798323557909981062441526632489356379900270839982983057950372426661305723⟩ : JacobianPoint) kidC14 = (⟨13619306861102039217537972956729995475687944640430703589602996659598538944460, 67831601458628628197515304507171369094806463040551122629942158754909233950650, 111154475178898673963498744852953982426288720072931454923712888209166472527661⟩ : JacobianPoint) := jp_eq_by_fields (by rfl)

/-- Double-and-add steps for the bits of `kidC15`. -/
theorem kidChunk15 : jmSteps (⟨55066263022277343669578718895168534326250603453777594175500187360389116729240, 32670510020758816978083085130507043184471273380659243275938904335757337482424, 1⟩ : JacobianPoint) (⟨13619306861102039217537972956729995475687944640430703589602996659598538944460, 67831601458628628197515304507171369094806463040551122629942158754909233950650, 111154475178898673963498744852953982426288720072931454923712888209166472527661⟩ : JacobianPoint) kidC15 = (⟨26334824137384404627014141348914709879290774470322506311305557322125904399141, 102910115320313939747950302252367959028443974416489387157987194741279772595475, 98109978372364826743737380638449162124802526782411615885733230165530989754243⟩ : JacobianPoint) := jp_eq_by_fields (by rfl)

/-- The full double-and-add evaluation of `jacobianMultiply` at the base point
and the scalar 49386405038091380111162284215034898805428120374459944904392784692005594733578, assembled from the chunk lemmas through `jm_peel`. -/
theorem kidMult : jacobianMultiply (toJacobian G) (49386405038091380111162284215034898805428120374459944904392784692005594733578 : Int) = (⟨26334824137384404627014141348914709879290774470322506311305557322125904399141, 102910115320313939747950302252367959028443974416489387157987194741279772595475, 98109978372364826743737380638449162124802526782411615885733230165530989754243⟩ : JacobianPoint) := by
  have hbits : chunkVal 1 kidBits = (49386405038091380111162284215034898805428120374459944904392784692005594733578 : Int) := by rfl
  have hlen : (300 : Nat) = 46 + kidBits.length := by rfl
  rw [jacobianMultiply, ← hbits, hlen,
    jm_peel kidBits 46 (toJacobian G) 1 (by decide) (by decide) (by rw [hbits]; decide),
    show jacobianMultiplyF 46 (toJacobian G) 1 = (toJacobian G) from by decide,
    show toJacobian G = (⟨55066263022277343669578718895168534326250603453777594175500187360389116729240, 32670510020758816978083085130507043184471273380659243275938904335757337482424, 1⟩ : JacobianPoint) from rfl]
  simp only [kidBits]
  rw [jmSteps_append, kidChunk0, jmSteps_append, kidChunk1, jmSteps_append, kidChunk2, jmSteps_append, kidChunk3, jmSteps_append, kidChunk4, jmSteps_append, kidChunk5, jmSteps_append, kidChunk6, jmSteps_append, kidChunk7, jmSteps_append, kidChunk8, jmSteps_append, kidChunk9, jmSteps_append, kidChunk10, jmSteps_append, kidChunk11, jmSteps_append, kidChunk12, jmSteps_append, kidChunk13, jmSteps_append, kidChunk14, kidChunk15]



/-- `privateKeyToPublicKey` on an out-of-range key: the error branch. -/
theorem privateKeyToPublicKey_err {bs : List Nat}
    (h : N ≤ (bigEndianToInt bs : Int)) :
    privateKeyToPublicKey bs = Except.error "Invalid private key" := by
  simp only [privateKeyToPublicKey]
  rw [if_pos h]

/-- `privateKeyToPublicKey` on an in-range key: the success branch. -/
theorem privateKeyToPublicKey_ok {bs : List Nat}
    (h : ¬ N ≤ (bigEndianToInt bs : Int)) :
    privateKeyToPublicKey bs =
      Except.ok (encodeRawPublicKey (fastMultiply G (bigEndianToInt bs : Int))) := by
  simp only [privateKeyToPublicKey]
  rw [if_neg h]

/-- `sign` after a successful hex decode of the key: no further check happens
and the 65-byte signature is hex-encoded. -/
theorem sign_hex_some {message privateKey : String} {bs : List Nat}
    (h : hexToBytes privateKey = some bs) :
    sign message privateKey = Except.ok (bytesToHex (signatureBytes
      (ecdsaRawSign (sha3_256 (utf8Encode message)) bs).1
      (ecdsaRawSign (sha3_256 (utf8Encode message)) bs).2.1
      (ecdsaRawSign (sha3_256 (utf8Encode message)) bs).2.2)) := by
  simp only [sign]
  rw [h]

/-- `sign` when the key is not valid hex. -/
theorem sign_hex_none {message privateKey : String}
    (h : hexToBytes privateKey = none) :
    sign message privateKey = Except.error "invalid hex" := by
  simp only [sign]
  rw [h]

/-- `deriveId` when hex decoding and key derivation both succeed. -/
theorem deriveId_ok {privateKey : String} {bs pub : List Nat}
    (h1 : hexToBytes privateKey = some bs)
    (h2 : privateKeyToPublicKey bs = Except.ok pub) :
    deriveId privateKey =
      Except.ok (bytesToHex (sha3_256 (utf8Encode ("04" ++ bytesToHex pub)))) := by
  simp only [deriveId, h1, h2]

/-- `deriveId` when the key is rejected by `privateKeyToPublicKey`. -/
theorem deriveId_err {privateKey : String} {bs : List Nat} {e : String}
    (h1 : hexToBytes privateKey = some bs)
    (h2 : privateKeyToPublicKey bs = Except.error e) :
    deriveId privateKey = Except.error e := by
  simp only [deriveId, h1, h2]

/-- `deriveId` when the key is not valid hex. -/
theorem deriveId_hex_none {privateKey : String}
    (h : hexToBytes privateKey = none) :
    deriveId privateKey = Except.error "invalid hex" := by
  simp only [deriveId]
  rw [h]

/-- Hex decoding of the known-answer signing key. -/
theorem hexKeySig : hexToBytes "d6eb959e9aec2e6fdc44b5862b269e987b8a4d6f2baca542d8acaa97ee5e74f6" = some keySigBytes := by rfl

/-- Hex decoding of the known-answer identity key. -/
theorem hexKeyId : hexToBytes "6d2fb6f546bacfd98c68769e61e0b44a697a30596c018a50e28200aa59b01c0a" = some keyIdBytes := by rfl

/-- The SHA3-256 digest of `"hello"`. -/
theorem sha3Hello : sha3_256 (utf8Encode "hello") = msgHashHello := by rfl

/-- First HMAC of the nonce derivation for the known-answer signing input. -/
theorem hmacSig1 : hmacSha256 (List.replicate 32 0) (List.replicate 32 1 ++ [0] ++ keySigBytes ++ msgHashHello) = kSig1 := by rfl

/-- Second HMAC of the nonce derivation for the known-answer signing input. -/
theorem hmacSig2 : hmacSha256 kSig1 (List.replicate 32 1) = vSig1 := by rfl

/-- Third HMAC of the nonce derivation for the known-answer signing input. -/
theorem hmacSig3 : hmacSha256 kSig1 (vSig1 ++ [1] ++ keySigBytes ++ msgHashHello) = kSig2 := by rfl

/-- Fourth HMAC of the nonce derivation for the known-answer signing input. -/
theorem hmacSig4 : hmacSha256 kSig2 vSig1 = vSig2 := by rfl

/-- Fifth HMAC of the nonce derivation for the known-answer signing input. -/
theorem hmacSig5 : hmacSha256 kSig2 vSig2 = kbSig := by rfl

/-- The deterministic nonce for the known-answer signature, assembled from the
five HMAC evaluations. -/
theorem nonceSig : deterministicGenerateK msgHashHello keySigBytes = 112235696135755959070239960406303079492021161716722779663979895957870475967809 := by
  simp only [deterministicGenerateK]
  rw [hmacSig1, hmacSig2, hmacSig3, hmacSig4, hmacSig5]
  rfl

/-- The ephemeral point of the known-answer signature. -/
theorem fastSig : fastMultiply G ((112235696135755959070239960406303079492021161716722779663979895957870475967809 : Nat) : Int) = ⟨104518954339781958394560641645395943679097515920249666875622055361416859117860, 75041372327242973536870869109686460363793214619942551143620077332309688616213⟩ := by
  show fromJacobian (jacobianMultiply (toJacobian G) _) = _
  rw [show (((112235696135755959070239960406303079492021161716722779663979895957870475967809 : Nat) : Int)) = (112235696135755959070239960406303079492021161716722779663979895957870475967809 : Int) from rfl, ksigMult]
  exact pt_eq_by_fields (by rfl)

/-- The raw signature of the known-answer test. -/
theorem rawSignSig : ecdsaRawSign msgHashHello keySigBytes = (0, (104518954339781958394560641645395943679097515920249666875622055361416859117860 : Int), (14158859338942831249513208937709282933189428034825787072709211201914386867209 : Int)) := by
  simp only [ecdsaRawSign]
  rw [nonceSig, fastSig]
  decide

/-- The public point of the known-answer identity key. -/
theorem fastId : fastMultiply G ((49386405038091380111162284215034898805428120374459944904392784692005594733578 : Nat) : Int) = ⟨4030199923116078007202776832587389201483662111124719438051209009671122683192, 16640512163049401586201261865545509326167439343825306832443143381648800381652⟩ := by
  show fromJacobian (jacobianMultiply (toJacobian G) _) = _
  rw [show (((49386405038091380111162284215034898805428120374459944904392784692005594733578 : Nat) : Int)) = (49386405038091380111162284215034898805428120374459944904392784692005594733578 : Int) from rfl, kidMult]
  exact pt_eq_by_fields (by rfl)

/-- Public-key derivation for the known-answer identity key. -/
theorem pubKeyId : privateKeyToPublicKey keyIdBytes = Except.ok pubIdBytes := by
  rw [privateKeyToPublicKey_ok (by decide),
    show bigEndianToInt keyIdBytes = (49386405038091380111162284215034898805428120374459944904392784692005594733578 : Nat) from by rfl, fastId]
  rfl

/-- The repository's known-answer signing vector, proved by evaluating the
embedding: signing `"hello"` with the fixed key yields the expected 130
hex characters. -/
theorem signHelloKAT :
    sign "hello" "d6eb959e9aec2e6fdc44b5862b269e987b8a4d6f2baca542d8acaa97ee5e74f6" = Except.ok "e713a1bb015fecabb5a084b0fe6d6e7271fca6f79525a634183cfdb175fe69241f4da161779d8e6b761200e1cf93766010a19072fa778f9643363e2cfadd640900" := by
  rw [sign_hex_some hexKeySig, sha3Hello, rawSignSig]
  rfl

/-- The repository's known-answer identity vector, proved by evaluating the
embedding. -/
theorem idKAT :
    deriveId "6d2fb6f546bacfd98c68769e61e0b44a697a30596c018a50e28200aa59b01c0a" = Except.ok "4fef2b5a82d134d058c1883c72d6d9caf77cd59ca82d73105017590dea3dcb87" := by
  rw [deriveId_ok hexKeyId pubKeyId]
  rfl


/-! ### Range lemmas for the modular arithmetic -/

/-- Negating the dividend negates the truncated remainder. -/
theorem neg_tmod_dividend (a b : Int) : (-a).tmod b = -(a.tmod b) := by
  rw [Int.tmod_def, Int.tmod_def, Int.neg_tdiv]
  ring

/-- Truncated remainder by a positive modulus is greater than the negated
modulus (any dividend). -/
theorem tmod_pos_lb (a : Int) {n : Int} (hn : 0 < n) : -n < a.tmod n := by
  rcases le_or_lt 0 a with ha | ha
  · have h := Int.tmod_nonneg n ha
    omega
  · have h1 : a.tmod n = -((-a).tmod n) := by rw [neg_tmod_dividend, neg_neg]
    have h2 := Int.tmod_lt_of_pos (-a) hn
    omega

/-- The source's normalization pattern `((x % n) + n) % n` (with truncated
remainders) lands in `[0, n)` for every `x` and positive `n`. -/
theorem norm_tmod_mem (a : Int) {n : Int} (hn : 0 < n) :
    0 ≤ (a.tmod n + n).tmod n ∧ (a.tmod n + n).tmod n < n := by
  have h1 := Int.tmod_lt_of_pos a hn
  have h2 := tmod_pos_lb a hn
  exact ⟨Int.tmod_nonneg n (by omega), Int.tmod_lt_of_pos _ hn⟩

/-- The normalization pattern changes its input by a multiple of the
modulus. -/
theorem dvd_sub_normTmod (X n : Int) : n ∣ (X - ((X.tmod n) + n).tmod n) := by
  refine ⟨X.tdiv n + (X.tmod n + n).tdiv n - 1, ?_⟩
  have e1 := Int.tdiv_add_tmod X n
  have e2 := Int.tdiv_add_tmod (X.tmod n + n) n
  linear_combination -e1 - e2

/-- `inv` always lands in `[0, n)` for a positive modulus. -/
theorem inv_mem (a : Int) {n : Int} (hn : 0 < n) : 0 ≤ inv a n ∧ inv a n < n := by
  simp only [inv]
  split
  · omega
  · exact norm_tmod_mem _ hn

/-- Both coordinates produced by `fromJacobian` lie in `[0, P)`. -/
theorem fromJacobian_mem (p : JacobianPoint) :
    0 ≤ (fromJacobian p).x ∧ (fromJacobian p).x < P ∧
    0 ≤ (fromJacobian p).y ∧ (fromJacobian p).y < P := by
  have hP : (0 : Int) < P := by decide
  simp only [fromJacobian]
  exact ⟨(norm_tmod_mem _ hP).1, (norm_tmod_mem _ hP).2,
    (norm_tmod_mem _ hP).1, (norm_tmod_mem _ hP).2⟩

/-- Both coordinates produced by `fastMultiply` lie in `[0, P)`. -/
theorem fastMultiply_mem (a : Point) (n : Int) :
    0 ≤ (fastMultiply a n).x ∧ (fastMultiply a n).x < P ∧
    0 ≤ (fastMultiply a n).y ∧ (fastMultiply a n).y < P :=
  fromJacobian_mem _

/-! ### Shape lemmas for the byte-level encodings -/

/-- `pad32` always returns exactly 32 bytes. -/
theorem pad32_length (bs : List Nat) : (pad32 bs).length = 32 := by
  simp only [pad32]
  split <;> simp_all <;> omega

/-- The 65-byte signature layout really has 65 bytes. -/
theorem signatureBytes_length (v : Nat) (r s : Int) :
    (signatureBytes v r s).length = 65 := by
  simp [signatureBytes, pad32_length]

/-- The final byte of the signature layout is the recovery byte. -/
theorem signatureBytes_getLast (v : Nat) (r s : Int) :
    (signatureBytes v r s).getLast? = some v := by
  simp only [signatureBytes]
  rw [List.append_assoc, ← List.append_assoc]
  exact List.getLast?_concat _

/-- `hexCharsOf` produces two characters per byte. -/
theorem hexCharsOf_length (bs : List Nat) : (hexCharsOf bs).length = 2 * bs.length := by
  induction bs with
  | nil => rfl
  | cons b bs ih => simp [hexCharsOf, ih]; omega

/-- `bytesToHex` produces two hex characters per byte. -/
theorem bytesToHex_length (bs : List Nat) : (bytesToHex bs).length = 2 * bs.length := by
  simp [bytesToHex, String.length, hexCharsOf_length]

/-- SHA3-256 always produces 32 bytes. -/
theorem sha3_256_length (msg : List Nat) : (sha3_256 msg).length = 32 := by
  simp [sha3_256, keccakSqueeze]

/-- SHA3-256 output values are bytes. -/
theorem sha3_256_lt (msg : List Nat) : ∀ b ∈ sha3_256 msg, b < 256 := by
  intro b hb
  simp only [sha3_256, keccakSqueeze, List.mem_map] at hb
  obtain ⟨i, _, rfl⟩ := hb
  exact Nat.mod_lt _ (by omega)

/-- The big-endian digits of a number are bytes. -/
theorem natToBEAux_lt (fuel v : Nat) : ∀ b ∈ natToBEAux fuel v, b < 256 := by
  induction fuel generalizing v with
  | zero => simp [natToBEAux]
  | succ fuel ih =>
    intro b hb
    simp only [natToBEAux] at hb
    split at hb
    · simp at hb
    · rcases List.mem_append.mp hb with h | h
      · exact ih _ _ h
      · simp at h
        omega

/-- `intToBigEndian` produces bytes. -/
theorem intToBigEndian_lt (v : Int) : ∀ b ∈ intToBigEndian v, b < 256 := by
  intro b hb
  simp only [intToBigEndian] at hb
  split at hb
  · simp at hb
    omega
  · exact natToBEAux_lt _ _ _ hb

/-- `pad32` only adds zero bytes. -/
theorem pad32_mem (bs : List Nat) : ∀ b ∈ pad32 bs, b = 0 ∨ b ∈ bs := by
  intro b hb
  simp only [pad32] at hb
  split at hb
  · exact Or.inr (List.mem_of_mem_take hb)
  · rcases List.mem_append.mp hb with h | h
    · exact Or.inl (List.eq_of_mem_replicate h)
    · exact Or.inr h

/-- Hex digits decode, for nibbles. -/
theorem hexDigitVal_hexChar : ∀ n < 16, (hexDigitVal (hexChar n)).isSome = true := by
  decide

/-- Every character hex-encoded from genuine bytes is a hex digit. -/
theorem hexCharsOf_hex (bs : List Nat) (h : ∀ b ∈ bs, b < 256) :
    ∀ c ∈ hexCharsOf bs, (hexDigitVal c).isSome = true := by
  induction bs with
  | nil => simp [hexCharsOf]
  | cons b bs ih =>
    intro c hc
    have hb := h b (by simp)
    simp only [hexCharsOf, List.mem_cons] at hc
    rcases hc with rfl | rfl | hc
    · exact hexDigitVal_hexChar _ (by omega)
    · exact hexDigitVal_hexChar _ (by omega)
    · exact ih (fun x hx => h x (by simp [hx])) c hc

/-- `bytesToHex` of genuine bytes is a hex string. -/
theorem bytesToHex_hex (bs : List Nat) (h : ∀ b ∈ bs, b < 256) :
    isHexString (bytesToHex bs) :=
  fun c hc => hexCharsOf_hex bs h c hc

/-! ### Component lemmas for the raw signer -/

/-- The `s` component returned by `ecdsaRawSign` is the canonicalized
`sRaw`. -/
theorem rawSign_s (msgHash privateKeyBytes : List Nat) :
    (ecdsaRawSign msgHash privateKeyBytes).2.2 =
      if ecdsaSRaw msgHash privateKeyBytes * 2 < N then ecdsaSRaw msgHash privateKeyBytes
      else N - ecdsaSRaw msgHash privateKeyBytes := rfl

/-- The `r` component returned by `ecdsaRawSign` is the ephemeral
x-coordinate. -/
theorem rawSign_r (msgHash privateKeyBytes : List Nat) :
    (ecdsaRawSign msgHash privateKeyBytes).2.1 =
      (ecdsaEphemeral msgHash privateKeyBytes).x := rfl

/-- The recovery byte returned by `ecdsaRawSign` (the source's `v - 27`) is
the xor of the ephemeral y-parity and the canonicalization bit. -/
theorem rawSign_v (msgHash privateKeyBytes : List Nat) :
    (ecdsaRawSign msgHash privateKeyBytes).1 =
      ((ecdsaEphemeral msgHash privateKeyBytes).y.toNat % 2) ^^^
        ecdsaCanonBit msgHash privateKeyBytes := by
  have h : (ecdsaRawSign msgHash privateKeyBytes).1 =
      27 + (((ecdsaEphemeral msgHash privateKeyBytes).y.toNat % 2) ^^^
        ecdsaCanonBit msgHash privateKeyBytes) - 27 := rfl
  omega

/-- The canonicalization bit is 0 or 1. -/
theorem canonBit_lt (msgHash privateKeyBytes : List Nat) :
    ecdsaCanonBit msgHash privateKeyBytes < 2 := by
  simp only [ecdsaCanonBit]
  split <;> omega

/-- The recovery byte is 0 or 1. -/
theorem rawSign_v_lt (msgHash privateKeyBytes : List Nat) :
    (ecdsaRawSign msgHash privateKeyBytes).1 < 2 := by
  rw [rawSign_v]
  have h1 := Nat.mod_two_eq_zero_or_one (ecdsaEphemeral msgHash privateKeyBytes).y.toNat
  have h2 := canonBit_lt msgHash privateKeyBytes
  have h3 : ecdsaCanonBit msgHash privateKeyBytes = 0 ∨
      ecdsaCanonBit msgHash privateKeyBytes = 1 := by omega
  rcases h1 with h1 | h1 <;> rcases h3 with h3 | h3 <;> rw [h1, h3] <;> decide

/-- `ecdsaSRaw` lies in `[0, N)`. -/
theorem ecdsaSRaw_mem (msgHash privateKeyBytes : List Nat) :
    0 ≤ ecdsaSRaw msgHash privateKeyBytes ∧ ecdsaSRaw msgHash privateKeyBytes < N := by
  have hN : (0 : Int) < N := by decide
  simp only [ecdsaSRaw]
  constructor
  · apply Int.tmod_nonneg
    apply mul_nonneg (inv_mem _ hN).1
    apply add_nonneg (Int.natCast_nonneg _)
    exact mul_nonneg (fastMultiply_mem _ _).1 (Int.natCast_nonneg _)
  · exact Int.tmod_lt_of_pos _ hN


/-! ### Claim theorems -/

/-- **C3**: for every digest (of every message) and private key, the 65-byte
signature encoding ends with the recovery byte, which equals
`(y odd ? 1 : 0) XOR (canonicalization parity bit)` for the ephemeral point
`(x, y)`, and only the two low values `{0, 1}` occur (the source's fixed base
27 is added and subtracted away before the byte is stored). -/
theorem c3_recovery_byte (message : String) (privateKeyBytes : List Nat) :
    (signatureBytes (ecdsaRawSign (sha3_256 (utf8Encode message)) privateKeyBytes).1
        (ecdsaRawSign (sha3_256 (utf8Encode message)) privateKeyBytes).2.1
        (ecdsaRawSign (sha3_256 (utf8Encode message)) privateKeyBytes).2.2).length = 65 ∧
    (signatureBytes (ecdsaRawSign (sha3_256 (utf8Encode message)) privateKeyBytes).1
        (ecdsaRawSign (sha3_256 (utf8Encode message)) privateKeyBytes).2.1
        (ecdsaRawSign (sha3_256 (utf8Encode message)) privateKeyBytes).2.2).getLast? =
      some ((ecdsaRawSign (sha3_256 (utf8Encode message)) privateKeyBytes).1) ∧
    (ecdsaRawSign (sha3_256 (utf8Encode message)) privateKeyBytes).1 =
      ((ecdsaEphemeral (sha3_256 (utf8Encode message)) privateKeyBytes).y.toNat % 2) ^^^
        ecdsaCanonBit (sha3_256 (utf8Encode message)) privateKeyBytes ∧
    (ecdsaRawSign (sha3_256 (utf8Encode message)) privateKeyBytes).1 < 2 :=
  ⟨signatureBytes_length _ _ _, signatureBytes_getLast _ _ _,
    rawSign_v _ _, rawSign_v_lt _ _⟩

/-- **C4**: `ecdsaRawSign` canonicalizes `s`: when `2·sRaw < N` it returns
`sRaw` with parity bit 0, otherwise `N - sRaw` with parity bit 1, and in both
cases the returned `s` satisfies `2·s < N`. -/
theorem c4_s_canonicalization (msgHash privateKeyBytes : List Nat) :
    (ecdsaRawSign msgHash privateKeyBytes).2.2 =
      (if 2 * ecdsaSRaw msgHash privateKeyBytes < N then ecdsaSRaw msgHash privateKeyBytes
       else N - ecdsaSRaw msgHash privateKeyBytes) ∧
    ecdsaCanonBit msgHash privateKeyBytes =
      (if 2 * ecdsaSRaw msgHash privateKeyBytes < N then 0 else 1) ∧
    2 * (ecdsaRawSign msgHash privateKeyBytes).2.2 < N := by
  have hmem := ecdsaSRaw_mem msgHash privateKeyBytes
  have hNval : N = (115792089237316195423570985008687907852837564279074904382605163141518161494337 : Int) := rfl
  have hcomm : ecdsaSRaw msgHash privateKeyBytes * 2 = 2 * ecdsaSRaw msgHash privateKeyBytes := by
    ring
  rw [rawSign_s, ecdsaCanonBit, hcomm]
  by_cases hc : 2 * ecdsaSRaw msgHash privateKeyBytes < N
  · rw [if_pos hc]
    exact ⟨rfl, rfl, hc⟩
  · rw [if_neg hc]
    exact ⟨rfl, rfl, by omega⟩

/-- **C5** (counterexample): the Jacobian point `(1, 0, 1)` is at infinity
(`Y = 0`), yet `jacobianDouble` does not return it unchanged. -/
theorem c5_counterexample :
    (⟨1, 0, 1⟩ : JacobianPoint).Y = 0 ∧
    jacobianDouble ⟨1, 0, 1⟩ ≠ (⟨1, 0, 1⟩ : JacobianPoint) := by
  constructor
  · rfl
  · decide

/-- **C5** (amended): on every input with `Y = 0` (a point at infinity),
`jacobianDouble` returns the fixed representative `(0, 0, 0)` of the point at
infinity — itself a point at infinity, but not in general the input
unchanged. -/
theorem c5_double_infinity (p : JacobianPoint) (h : p.Y = 0) :
    jacobianDouble p = ⟨0, 0, 0⟩ := by
  simp only [jacobianDouble]
  rw [if_pos h]

/-- **C5** (witness): the amended statement evaluated at `(1, 0, 1)`. -/
theorem c5_double_infinity_witness : jacobianDouble ⟨1, 0, 1⟩ = ⟨0, 0, 0⟩ :=
  c5_double_infinity ⟨1, 0, 1⟩ rfl

/-- **C6**: `sign` is a pure function of the message and the key — the
embedding of the source has no state or randomness in the signing path
(`randomBytes` occurs only in `generatePrivateKey`), so two invocations on
the same inputs are byte-identical. -/
theorem c6_sign_deterministic (M K : String) : sign M K = sign M K := rfl

/-- **C7**: the repository's known-answer signing vector: signing `"hello"`
with the fixed private key yields exactly the expected 130 hex characters. -/
theorem c7_known_answer_sign :
    sign "hello" "d6eb959e9aec2e6fdc44b5862b269e987b8a4d6f2baca542d8acaa97ee5e74f6" =
      Except.ok "e713a1bb015fecabb5a084b0fe6d6e7271fca6f79525a634183cfdb175fe69241f4da161779d8e6b761200e1cf93766010a19072fa778f9643363e2cfadd640900" :=
  signHelloKAT

/-- **C9**: for an affine point with both coordinates in `[0, P)`, lowering
after lifting is the identity: `fromJacobian (toJacobian (x, y)) = (x, y)`. -/
theorem c9_jacobian_roundtrip (x y : Int) (hx0 : 0 ≤ x) (hx : x < P)
    (hy0 : 0 ≤ y) (hy : y < P) :
    fromJacobian (toJacobian ⟨x, y⟩) = ⟨x, y⟩ := by
  have hPval : P = (115792089237316195423570985008687907853269984665640564039457584007908834671663 : Int) := rfl
  simp only [fromJacobian, toJacobian]
  rw [show inv 1 P = 1 from by decide]
  simp only [mul_one, show Int.tmod 1 P = 1 from by decide]
  rw [Int.tmod_eq_of_lt hx0 hx, Int.tmod_eq_of_lt hy0 hy,
    Int.tmod_eq_emod (by omega) (by rw [hPval]; omega),
    Int.tmod_eq_emod (by omega) (by rw [hPval]; omega)]
  simp only [Point.mk.injEq]
  rw [hPval] at hx hy ⊢
  constructor <;> omega

/-- **C9** (witness): the round trip evaluated at the base point `G`. -/
theorem c9_jacobian_roundtrip_witness :
    fromJacobian (toJacobian ⟨Gx, Gy⟩) = ⟨Gx, Gy⟩ :=
  c9_jacobian_roundtrip Gx Gy (by decide) (by decide) (by decide) (by decide)


/-- Core invariant argument for `inv`: under the extended-Euclid invariants
(determinant `±n`, Bezout congruences, ranges), the coefficient returned by
the loop is never divisible by the modulus. -/
theorem invLoop_not_dvd (a n : Int) (hn : 1 < n) :
    ∀ (fuel : Nat) (lm hm low high : Int),
      low.toNat < fuel →
      0 ≤ low → low < high → 2 ≤ high →
      (lm * high - hm * low = n ∨ lm * high - hm * low = -n) →
      n ∣ (lm * a - low) → n ∣ (hm * a - high) →
      ¬ n ∣ invLoop fuel lm hm low high := by
  intro fuel
  induction fuel with
  | zero =>
    intro lm hm low high hf
    omega
  | succ f ih =>
    intro lm hm low high hf h0 hlh h2 hdet hJ1 hJ2
    rw [invLoop]
    split
    case isTrue hlow =>
      have hmod : high - low * (high.tdiv low) = high.tmod low := by
        have := Int.tdiv_add_tmod high low
        omega
      have hm1 : high.tmod low < low := Int.tmod_lt_of_pos high (by omega)
      have hm0 : 0 ≤ high.tmod low := Int.tmod_nonneg low (by omega)
      apply ih
      · rw [hmod]; omega
      · rw [hmod]; omega
      · rw [hmod]; omega
      · omega
      · have hkey : (hm - lm * (high.tdiv low)) * low - lm * (high - low * (high.tdiv low)) =
            -(lm * high - hm * low) := by ring
        rcases hdet with h | h
        · exact Or.inr (by rw [hkey, h])
        · exact Or.inl (by rw [hkey, h]; ring)
      · have hkey : (hm - lm * (high.tdiv low)) * a - (high - low * (high.tdiv low)) =
            (hm * a - high) - (high.tdiv low) * (lm * a - low) := by ring
        rw [hkey]
        exact dvd_sub hJ2 (Dvd.dvd.mul_left hJ1 _)
      · exact hJ1
    case isFalse hlow =>
      intro hdvd
      have hl01 : low = 0 ∨ low = 1 := by omega
      rcases hl01 with h | h
      · subst h
        have hlm0 : lm ≠ 0 := by
          rintro rfl
          simp at hdet
          omega
        have habs : n ≤ |lm| := Int.le_of_dvd (abs_pos.mpr hlm0) ((dvd_abs n lm).mpr hdvd)
        have h2abs : (2 : Int) ≤ |high| := by
          rw [abs_of_nonneg (by omega : (0 : Int) ≤ high)]
          omega
        have hmul : n * 2 ≤ |lm| * |high| :=
          mul_le_mul habs h2abs (by omega) (le_trans (by omega) habs)
        rw [← abs_mul] at hmul
        have : |lm * high| = n := by
          rcases hdet with h | h <;> rw [show lm * high = lm * high - hm * 0 by ring, h]
          · exact abs_of_nonneg (by omega)
          · rw [abs_neg]
            exact abs_of_nonneg (by omega)
        omega
      · subst h
        have h1 : n ∣ lm * a := Dvd.dvd.mul_right hdvd a
        have h2 : n ∣ (1 : Int) := by
          have := dvd_sub h1 hJ1
          simpa using this
        have := Int.le_of_dvd (by omega) h2
        omega

/-- **C10**: the zero test of `inv` precedes input normalization: for every
modulus `n > 1`, every nonzero multiple of `n` is mapped to `1` (the loop is
entered with `low = 0` and returns the initial Bezout coefficient `1`), and
the literal argument `0` is the only input on which `inv` returns `0`. -/
theorem c10_inv_zero_semantics (a n : Int) (hn : 1 < n) :
    (a ≠ 0 → n ∣ a → inv a n = 1) ∧ (inv a n = 0 ↔ a = 0) := by
  have hnpos : (0 : Int) < n := by omega
  constructor
  · intro ha hdvd
    have h0 : a.tmod n = 0 := Int.tmod_eq_zero_of_dvd hdvd
    simp only [inv, if_neg ha, h0, zero_add, Int.tmod_self]
    simp only [Int.toNat_zero, zero_add, invLoop]
    rw [if_neg (by omega)]
    rw [show Int.tmod (1 : Int) n = 1 from Int.tmod_eq_of_lt (by omega) (by omega),
      show ((1 : Int) + n).tmod n = (1 + n) % n from Int.tmod_eq_emod (by omega) (by omega),
      show (1 : Int) + n = 1 + n * 1 by ring, Int.add_mul_emod_self_left,
      show (1 : Int) % n = 1 from Int.emod_eq_of_lt (by omega) (by omega)]
  · constructor
    · intro h0
      by_contra ha
      simp only [inv, if_neg ha] at h0
      set L := ((a.tmod n) + n).tmod n with hL
      have hmem : 0 ≤ L ∧ L < n := norm_tmod_mem a hnpos
      have hloop := invLoop_not_dvd a n hn (L.toNat + 1) 1 0 L n
        (by omega) hmem.1 hmem.2 (by omega)
        (Or.inl (by ring))
        (by simpa using dvd_sub_normTmod a n)
        (by simp)
      apply hloop
      have hd := dvd_sub_normTmod (invLoop (L.toNat + 1) 1 0 L n) n
      rw [h0] at hd
      simpa using hd
    · rintro rfl
      simp [inv]

/-- **C10** (witness): at `a = n = 7` (the claim's own example, `a` a nonzero
multiple of `n`), `inv` returns `1`, and it does not return `0`. -/
theorem c10_inv_zero_semantics_witness :
    inv 7 7 = 1 ∧ (inv 7 7 = 0 ↔ (7 : Int) = 0) :=
  ⟨(c10_inv_zero_semantics 7 7 (by decide)).1 (by decide) (by decide),
   (c10_inv_zero_semantics 7 7 (by decide)).2⟩


/-- **C1** (counterexample): `sign` does not reject an out-of-range key.
With the 64-hex-character key of value `2^256 - 1 ≥ N`, it produces a result
(`Except.ok`) instead of raising the invalid-key error, contradicting the
claim that neither operation produces output for such keys. -/
theorem c1_counterexample :
    hexToBytes ffKey = some (List.replicate 32 255) ∧
    N ≤ ((bigEndianToInt (List.replicate 32 255) : Nat) : Int) ∧
    (sign "hello" ffKey).isOk = true := by
  refine ⟨by rfl, by decide, ?_⟩
  rw [sign_hex_some (show hexToBytes ffKey = some (List.replicate 32 255) from by rfl)]
  rfl

/-- **C1** (amended): `id` rejects a hex key whose value is `≥ N` with the
invalid-key error and returns no output, but `sign` performs no range check:
on every well-formed hex key (in range or not) it returns a signature. -/
theorem c1_invalid_key_rejection :
    (∀ (K : String) (bs : List Nat), hexToBytes K = some bs →
      N ≤ (bigEndianToInt bs : Int) → deriveId K = Except.error "Invalid private key") ∧
    (∀ (M K : String) (bs : List Nat), hexToBytes K = some bs →
      (sign M K).isOk = true) := by
  constructor
  · intro K bs h1 h2
    exact deriveId_err h1 (privateKeyToPublicKey_err h2)
  · intro M K bs h
    rw [sign_hex_some h]
    rfl

/-- **C1** (witness): at the all-`ff` key, `id` raises the invalid-key error
while `sign` still returns a signature. -/
theorem c1_invalid_key_rejection_witness :
    deriveId ffKey = Except.error "Invalid private key" ∧
    (sign "hello" ffKey).isOk = true :=
  ⟨c1_invalid_key_rejection.1 ffKey (List.replicate 32 255) (by rfl) (by decide),
   c1_invalid_key_rejection.2 "hello" ffKey (List.replicate 32 255) (by rfl)⟩

/-- **C8**: `generatePrivateKey` (on its 32 random bytes) always yields 64
hex characters, every identity accepted by `deriveId` is 64 hex characters,
and every signature produced by `sign` is 130 hex characters. -/
theorem c8_output_lengths :
    (∀ randomData : List Nat, randomData.length = 32 →
      (generatePrivateKey randomData).length = 64 ∧
        isHexString (generatePrivateKey randomData)) ∧
    (∀ K s : String, deriveId K = Except.ok s → s.length = 64 ∧ isHexString s) ∧
    (∀ M K s : String, sign M K = Except.ok s → s.length = 130 ∧ isHexString s) := by
  refine ⟨?_, ?_, ?_⟩
  · intro rand _
    constructor
    · rw [show generatePrivateKey rand = bytesToHex (sha3_256 rand) from rfl,
        bytesToHex_length, sha3_256_length]
    · exact bytesToHex_hex _ (sha3_256_lt rand)
  · intro K s h
    cases hhex : hexToBytes K with
    | none =>
      rw [deriveId_hex_none hhex] at h
      exact absurd h (by simp)
    | some bs =>
      cases hpk : privateKeyToPublicKey bs with
      | error e =>
        rw [deriveId_err hhex hpk] at h
        exact absurd h (by simp)
      | ok pub =>
        rw [deriveId_ok hhex hpk] at h
        injection h with h
        subst h
        constructor
        · rw [bytesToHex_length, sha3_256_length]
        · exact bytesToHex_hex _ (sha3_256_lt _)
  · intro M K s h
    cases hhex : hexToBytes K with
    | none =>
      rw [sign_hex_none hhex] at h
      exact absurd h (by simp)
    | some bs =>
      rw [sign_hex_some hhex] at h
      injection h with h
      subst h
      constructor
      · rw [bytesToHex_length, signatureBytes_length]
      · apply bytesToHex_hex
        intro b hb
        simp only [signatureBytes, List.append_assoc, List.mem_append,
          List.mem_singleton] at hb
        rcases hb with hb | hb | rfl
        · rcases pad32_mem _ _ hb with rfl | hb2
          · omega
          · exact intToBigEndian_lt _ _ hb2
        · rcases pad32_mem _ _ hb with rfl | hb2
          · omega
          · exact intToBigEndian_lt _ _ hb2
        · have := rawSign_v_lt (sha3_256 (utf8Encode M)) bs
          omega

/-- **C8** (witness): the three length facts, evaluated at a fixed 32-byte
random input, at the known-answer identity, and at the known-answer
signature. -/
theorem c8_output_lengths_witness :
    ((generatePrivateKey (List.replicate 32 0)).length = 64 ∧
      isHexString (generatePrivateKey (List.replicate 32 0))) ∧
    (("4fef2b5a82d134d058c1883c72d6d9caf77cd59ca82d73105017590dea3dcb87" : String).length = 64 ∧
      isHexString "4fef2b5a82d134d058c1883c72d6d9caf77cd59ca82d73105017590dea3dcb87") ∧
    (("e713a1bb015fecabb5a084b0fe6d6e7271fca6f79525a634183cfdb175fe69241f4da161779d8e6b761200e1cf93766010a19072fa778f9643363e2cfadd640900" : String).length = 130 ∧
      isHexString "e713a1bb015fecabb5a084b0fe6d6e7271fca6f79525a634183cfdb175fe69241f4da161779d8e6b761200e1cf93766010a19072fa778f9643363e2cfadd640900") :=
  ⟨c8_output_lengths.1 (List.replicate 32 0) (by rfl),
   c8_output_lengths.2.1 "6d2fb6f546bacfd98c68769e61e0b44a697a30596c018a50e28200aa59b01c0a" _ idKAT,
   c8_output_lengths.2.2 "hello" "d6eb959e9aec2e6fdc44b5862b269e987b8a4d6f2baca542d8acaa97ee5e74f6" _ signHelloKAT⟩

end Crypto
